import Mathlib

/-!
Verification of the playlist-tester repository's core against its
natural-language specification.

The development shallowly embeds the pure logic of
`scripts/update_m3u8.py` (candidate validator `_validate_url`, playlist
locator/mutator `update_m3u_file`) and the cache-consultation step of
`scripts/update_playlist.py` (`main`).  Network effects are modelled by an
oracle `net : Request → FetchOutcome`; the file system is modelled by
passing the raw file content in and returning the written content (and
the optional backup content) out.  Python strings are modelled as Lean
`String`s manipulated through their underlying `List Char`
(character-level semantics, which coincides with Python's for the
ASCII-scope data the program handles; the Unicode-only divergences of
`str.lower`/`str.strip`/`\s`/`\d` are outside the modelled scope and are
noted at each definition).
-/

/-! ## Character and string primitives mirroring Python's semantics -/

/-- Python whitespace as stripped by `str.strip()` and matched by `\s`
(ASCII range; Unicode spaces are outside the modelled scope). -/
def isPySpace (c : Char) : Bool :=
  c = ' ' || c = '\t' || c = '\n' || c = '\r' || c = '\x0b' || c = '\x0c'

/-- Characters on which Python's `str.splitlines()` splits. -/
def isLineBoundaryChar (c : Char) : Bool :=
  c = '\n' || c = '\r' || c = '\x0b' || c = '\x0c' || c = '\x1c' ||
  c = '\x1d' || c = '\x1e' || c = '\x85' || c = '\u2028' || c = '\u2029'

/-- Python `str.strip()` on the character list: drop whitespace from both ends. -/
def stripData (l : List Char) : List Char :=
  (l.dropWhile isPySpace).rdropWhile isPySpace

/-- Python `str.strip()`. -/
def pyStrip (s : String) : String := ⟨stripData s.data⟩

/-- Python `str.lower()` (ASCII scope). -/
def lowerStr (s : String) : String := ⟨s.data.map Char.toLower⟩

/-- Python `str.upper()` (ASCII scope). -/
def upperStr (s : String) : String := ⟨s.data.map Char.toUpper⟩

/-- Python `s.startswith(p)` (character-level). -/
def startsWithS (s p : String) : Bool := p.data.isPrefixOf s.data

/-- Python `s.endswith(p)` (character-level). -/
def endsWithS (s p : String) : Bool := p.data.isSuffixOf s.data

/-- Substring occurrence scan: does `needle` occur (contiguously) in the list? -/
def infixData (needle : List Char) : List Char → Bool
  | [] => needle.isEmpty
  | c :: rest => needle.isPrefixOf (c :: rest) || infixData needle rest

/-- Python `p in s` substring test (character-level). -/
def containsSub (s p : String) : Bool := infixData p.data s.data

/-- Python `str.splitlines()`, accumulator version.  `acc` holds the
current line reversed; the Bool flag records whether the previous
character was a carriage return, so that the line feed of a `\r\n` pair
does not open an extra line. -/
def splitlinesAux : List Char → Bool → List Char → List (List Char)
  | [], _, acc => if acc.isEmpty then [] else [acc.reverse]
  | c :: rest, afterCR, acc =>
    if c = '\n' then
      if afterCR then splitlinesAux rest false acc
      else acc.reverse :: splitlinesAux rest false []
    else if c = '\r' then acc.reverse :: splitlinesAux rest true []
    else if isLineBoundaryChar c then acc.reverse :: splitlinesAux rest false []
    else splitlinesAux rest false (c :: acc)

/-- Python `str.splitlines()`. -/
def pySplitlines (s : String) : List String :=
  (splitlinesAux s.data false []).map (fun l => (⟨l⟩ : String))

/-- Universal-newlines translation performed by `Path.read_text`:
`\r\n` and `\r` both become `\n`.  The Bool flag records whether the
previous character was a carriage return. -/
def readTextAux : List Char → Bool → List Char
  | [], _ => []
  | c :: rest, afterCR =>
    if c = '\n' then
      if afterCR then readTextAux rest false
      else '\n' :: readTextAux rest false
    else if c = '\r' then '\n' :: readTextAux rest true
    else c :: readTextAux rest false

/-- Text obtained by `Path.read_text` from raw file content (universal
newlines; on this platform the decoding is otherwise the identity). -/
def readText (raw : String) : String := ⟨readTextAux raw.data false⟩

/-- Each line followed by one `\n`; the byte-level shape of a well-formed
line-oriented file. -/
def joinNL : List String → String
  | [] => ""
  | l :: ls => l ++ "\n" ++ joinNL ls

/-- Python `"\n".join(lines)`. -/
def pyJoinNL : List String → String
  | [] => ""
  | [l] => l
  | l :: ls => l ++ "\n" ++ pyJoinNL ls

/-- First index whose element satisfies the predicate (Python's
`for i, line in enumerate(lines): if ...: break`). -/
def firstIdx (p : α → Bool) : List α → Option Nat
  | [] => none
  | x :: xs => if p x then some 0 else (firstIdx p xs).map (· + 1)

/-- Python `ln.split("=", 1)[1]`: everything after the first `=`
(total function; only used on lines guaranteed to contain `=`). -/
def splitVal (s : String) : String :=
  ⟨(s.data.dropWhile (fun c => c ≠ '=')).drop 1⟩

/-- Trailing digit run of a string: the text matched by `re.search(r"(\d+)$", s)`
(empty when the string does not end in a digit). -/
def trailingDigits (s : String) : String :=
  ⟨(s.data.reverse.takeWhile Char.isDigit).reverse⟩

/-! ## The validator `_validate_url` (scripts/update_m3u8.py lines 46-84) -/

/-- Outcome of the `requests.get` call as seen by `_validate_url`:
`status`/`contentType` from the response object, `bodyPrefix` the
permissively decoded (`errors='ignore'`) text of the at-most-2048-byte
body prefix. -/
structure HttpResponse where
  status : Nat
  contentType : String
  bodyPrefix : String
deriving DecidableEq

/-- Result of attempting the HTTP request: either some exception was
raised inside the `try` block (`transportErr` — timeout, DNS failure,
connection reset, ...) or a response was obtained; `readFailed` records
whether `r.raw.read(2048)` raised (in which case the code substitutes an
empty body). -/
inductive FetchOutcome where
  | transportErr
  | resp (r : HttpResponse) (readFailed : Bool)
deriving DecidableEq

/-- An outbound request as issued by `_validate_url`. -/
structure Request where
  url : String
  referrer : Option String
  userAgent : Option String
  cookies : Option (List (String × String))

/-- The classification `_validate_url` applies once a response was
received (scripts/update_m3u8.py lines 61-82). -/
def classifyResponse (url : String) (r : HttpResponse) (readFailed : Bool) : Bool :=
  let dataText : String := if readFailed then "" else r.bodyPrefix
  if (r.status == 200) &&
      (containsSub (lowerStr r.contentType) "mpegurl" || endsWithS (lowerStr url) ".m3u8") then
    true
  else if (r.status == 200) &&
      (containsSub dataText "#EXTM3U" || containsSub dataText "#EXTINF" ||
        startsWithS (pyStrip dataText) "#EXT") then
    true
  else
    false

/-- `_validate_url`'s result as a function of the fetch outcome: any
exception inside the `try` block yields `False`. -/
def validateOutcome (url : String) (o : FetchOutcome) : Bool :=
  match o with
  | .transportErr => false
  | .resp r rf => classifyResponse url r rf

/-- `_validate_url(url, referrer, user_agent, cookies, timeout)` under a
network oracle `net` assigning an outcome to the issued request. -/
def validate_url (net : Request → FetchOutcome) (url : String)
    (ref ua : Option String) (cookies : Option (List (String × String))) : Bool :=
  validateOutcome url (net ⟨url, ref, ua, cookies⟩)

/-- Claim C1's classification, transcribed literally from the spec's
words: status 200 and (content-type contains the MPEG-URL marker or the
url ends with the manifest extension), or status 200 and (the decoded
body prefix contains a canonical playlist header token or begins with
the generic extension-tag prefix). -/
def specC1Literal (url : String) (status : Nat) (ct body : String) : Bool :=
  (status == 200 &&
    (containsSub (lowerStr ct) "mpegurl" || endsWithS (lowerStr url) ".m3u8")) ||
  (status == 200 &&
    (containsSub body "#EXTM3U" || containsSub body "#EXTINF" ||
      startsWithS body "#EXT"))

/-- Claim C1 amended: as `specC1Literal`, except that "begins with the
generic extension-tag prefix" is tested after stripping surrounding
whitespace from the decoded body prefix. -/
def specC1Amended (url : String) (status : Nat) (ct body : String) : Bool :=
  (status == 200 &&
    (containsSub (lowerStr ct) "mpegurl" || endsWithS (lowerStr url) ".m3u8")) ||
  (status == 200 &&
    (containsSub body "#EXTM3U" || containsSub body "#EXTINF" ||
      startsWithS (pyStrip body) "#EXT"))

/-! ## The playlist locator (scripts/update_m3u8.py lines 91-124) -/

/-- Case-insensitive literal match of `pat` against the head of `cs`;
returns the remainder on success (used to embed `re.IGNORECASE` literal
parts). -/
def ciPrefix : List Char → List Char → Option (List Char)
  | [], rest => some rest
  | _ :: _, [] => none
  | p :: ps, c :: cs => if c.toLower = p.toLower then ciPrefix ps cs else none

/-- Attempt of the regex `group-title\s*=\s*"([^"]*)"` (IGNORECASE) at the
head of `cs`; returns the capture group on success. -/
def gtAt (cs : List Char) : Option (List Char) :=
  match ciPrefix "group-title".data cs with
  | none => none
  | some r1 =>
    match r1.dropWhile isPySpace with
    | '=' :: r3 =>
      match r3.dropWhile isPySpace with
      | '"' :: r5 =>
        let cap := r5.takeWhile (fun c => c ≠ '"')
        match r5.drop cap.length with
        | '"' :: _ => some cap
        | _ => none
      | _ => none
    | _ => none

/-- `re.search` of the group-title pattern: first position (left to
right) where `gtAt` succeeds. -/
def gtSearch : List Char → Option (List Char)
  | [] => none
  | c :: rest =>
    match gtAt (c :: rest) with
    | some cap => some cap
    | none => gtSearch rest

/-- The captured `group-title` value of a header line, if the line
matches `group-title\s*=\s*"([^"]*)"` (IGNORECASE). -/
def groupTitleValue (line : String) : Option String :=
  (gtSearch line.data).map (fun l => (⟨l⟩ : String))

/-- Attempt of the regex `Sport\s*TV\s*<num>` (IGNORECASE) at the head of
an already lowercased character list. -/
def famAt (num : List Char) (cs : List Char) : Bool :=
  match ciPrefix "sport".data cs with
  | none => false
  | some r1 =>
    match ciPrefix "tv".data (r1.dropWhile isPySpace) with
    | none => false
    | some r2 => num.isPrefixOf (r2.dropWhile isPySpace)

/-- `re.search` of the family pattern: true if it matches at any position. -/
def famSearch (num : List Char) : List Char → Bool
  | [] => false
  | c :: rest => famAt num (c :: rest) || famSearch num rest

/-- Does `line` match `re.search(rf"Sport\s*TV\s*{num}", line, re.I)`? -/
def fallbackHit (num : String) (line : String) : Bool :=
  famSearch num.data line.data

/-- The literal substring `tvg-id="<id>"` searched for by the primary match. -/
def idPattern (tvgId : String) : String := "tvg-id=\"" ++ tvgId ++ "\""

/-- Acceptance of one line by the primary scan (lines 93-105): the line
must contain the identifier annotation and, when a non-empty group
filter is supplied, carry a `group-title` whose stripped value equals
the filter case-insensitively. -/
def lineAccept (tvgId : String) (gf : Option String) (line : String) : Bool :=
  containsSub line (idPattern tvgId) &&
  (match gf with
   | none => true
   | some g =>
     if g.isEmpty then true
     else
       match groupTitleValue line with
       | none => false
       | some v => lowerStr (pyStrip v) == lowerStr g)

/-- Primary match: index of the first accepted line. -/
def findPrimary (lines : List String) (tvgId : String) (gf : Option String) : Option Nat :=
  firstIdx (lineAccept tvgId gf) lines

/-- Is the requested id in the recognized channel family
(`tvg_id.upper()` starts with `SPORT.TV` or `SPORTTV`)? -/
def familyId (tvgId : String) : Bool :=
  startsWithS (upperStr tvgId) "SPORT.TV" || startsWithS (upperStr tvgId) "SPORTTV"

/-- Numeric fallback (lines 111-121): only for the recognized family and
only when the id ends in digits; first line matching the family pattern. -/
def findFallback (lines : List String) (tvgId : String) : Option Nat :=
  if familyId tvgId then
    let num := trailingDigits tvgId
    if num.isEmpty then none
    else firstIdx (fallbackHit num) lines
  else none

/-- Full locator: primary match, then (only when it failed) the numeric
fallback. -/
def findTarget (lines : List String) (tvgId : String) (gf : Option String) : Option Nat :=
  match findPrimary lines tvgId gf with
  | some i => some i
  | none => findFallback lines tvgId

/-! ## Block analysis around the matched header (lines 126-152) -/

/-- Length of the leading run of blank (after strip) lines. -/
def countBlanks : List String → Nat
  | [] => 0
  | l :: ls => if pyStrip l == "" then countBlanks ls + 1 else 0

/-- Length of the leading run of comment (`#`-starting) lines. -/
def countComments : List String → Nat
  | [] => 0
  | l :: ls => if startsWithS l "#" then countComments ls + 1 else 0

/-- The option line prefix for the referrer. -/
def refMark : String := "#EXTVLCOPT:http-referrer="

/-- The option line prefix for the user agent. -/
def uaMark : String := "#EXTVLCOPT:http-user-agent="

/-- Scan of the replaceable block for existing referrer / user-agent
option values (lines 145-152); later occurrences overwrite earlier ones. -/
def parseOptsAux (acc : Option String × Option String) :
    List String → Option String × Option String
  | [] => acc
  | l :: ls =>
    let ln := pyStrip l
    let acc1 := if startsWithS ln refMark then (some (splitVal ln), acc.2) else acc
    let acc2 := if startsWithS ln uaMark then (acc1.1, some (splitVal ln)) else acc1
    parseOptsAux acc2 ls

/-- Everything the locator records about the replaceable block following
the matched header line. -/
structure Block where
  startReplace : Nat
  endReplace : Nat
  existingUrl : Option String
  existingRef : Option String
  existingUa : Option String
deriving DecidableEq

/-- The existing URL recorded at line `pos2` (lines 137-139): present when
that line exists, does not start with `#`, and is non-blank. -/
def existingUrlAt (lines : List String) (pos2 : Nat) : Option String :=
  match lines[pos2]? with
  | some l => if !(startsWithS l "#") && pyStrip l != "" then some (pyStrip l) else none
  | none => none

/-- The exclusive end of the replaceable block (lines 140-142): one past
the URL line when one was found, else `pos2` itself. -/
def endReplaceAt (lines : List String) (pos2 : Nat) : Nat :=
  match lines[pos2]? with
  | some l => if !(startsWithS l "#") && pyStrip l != "" then pos2 + 1 else pos2
  | none => pos2

/-- `pos` (lines 127-129): first non-blank line index after the header. -/
def posOf (lines : List String) (target : Nat) : Nat :=
  target + 1 + countBlanks (lines.drop (target + 1))

/-- `pos2` (lines 133-135): one past the consecutive comment lines. -/
def pos2Of (lines : List String) (target : Nat) : Nat :=
  posOf lines target + countComments (lines.drop (posOf lines target))

/-- The replaceable block slice handed to the option parser (line 147;
the clamp `min · lines.length` is Python's
`end_replace if end_replace <= len(lines) else len(lines)`). -/
def blkOf (lines : List String) (target : Nat) : List String :=
  (lines.drop (posOf lines target)).take
    (min (endReplaceAt lines (pos2Of lines target)) lines.length - posOf lines target)

/-- Analysis of the lines after the header at `target` (lines 126-152):
skip blank lines, consume consecutive `#` lines, then an optional
non-blank non-comment URL line; parse existing options in the block. -/
def blockOf (lines : List String) (target : Nat) : Block :=
  ⟨posOf lines target, endReplaceAt lines (pos2Of lines target),
    existingUrlAt lines (pos2Of lines target),
    (parseOptsAux (none, none) (blkOf lines target)).1,
    (parseOptsAux (none, none) (blkOf lines target)).2⟩

/-! ## The mutator `update_m3u_file` (scripts/update_m3u8.py lines 87-199) -/

/-- Arguments of `update_m3u_file` (the file content is passed
separately; `backupDirProvided` models whether `backup_dir` was given). -/
structure UpdateArgs where
  tvgId : String
  newUrl : String
  dryRun : Bool
  referrer : Option String
  userAgent : Option String
  backupDirProvided : Bool
  groupFilter : Option String

/-- The two `RuntimeError`s `update_m3u_file` can raise. -/
inductive UpdErr where
  | notFound
  | validationFailed
deriving DecidableEq

deriving instance DecidableEq for Except

/-- File-system effects of one `update_m3u_file` call: content written to
the backup file (when created) and to the playlist file (when rewritten). -/
structure Effects where
  backupWritten : Option String
  fileWritten : Option String
deriving DecidableEq

/-- No file-system effect. -/
def noEffects : Effects := ⟨none, none⟩

/-- `url_changed` (line 158). -/
def urlChangedOf (b : Block) (newUrl : String) : Bool :=
  match b.existingUrl with
  | none => true
  | some u => pyStrip u != pyStrip newUrl

/-- `opts_changed` (lines 159-165): true iff a supplied desired value
differs from the recorded existing value. -/
def optsChangedOf (b : Block) (ref ua : Option String) : Bool :=
  (match ref with
   | none => false
   | some r => some r != b.existingRef) ||
  (match ua with
   | none => false
   | some u => some u != b.existingUa)

/-- Does the call need to rewrite the entry (negation of line 167's test)? -/
def needsChange (b : Block) (newUrl : String) (ref ua : Option String) : Bool :=
  urlChangedOf b newUrl || optsChangedOf b ref ua

/-- Replacement option lines (lines 176-184): desired value if supplied,
else the previous existing value if any, else omitted; referrer first,
then user agent. -/
def insertLinesOf (b : Block) (ref ua : Option String) : List String :=
  (match ref with
   | some r => [refMark ++ r]
   | none =>
     match b.existingRef with
     | some r => [refMark ++ r]
     | none => []) ++
  (match ua with
   | some u => [uaMark ++ u]
   | none =>
     match b.existingUa with
     | some u => [uaMark ++ u]
     | none => [])

/-- The rewritten line list (lines 196-197): slice
`lines[start_replace:end_replace]` replaced by the new block (Python
slice-assignment semantics, clamping the slice bounds to the list). -/
def newLinesOf (lines : List String) (b : Block) (newUrl : String)
    (ref ua : Option String) : List String :=
  lines.take b.startReplace ++ insertLinesOf b ref ua ++ [newUrl] ++
    lines.drop (max b.startReplace (min b.endReplace lines.length))

/-- `update_m3u_file` on the already-decoded text (everything after
`file_path.read_text`).  Returns the Python return value (or raised
error) together with the file-system effects. -/
def updateText (net : Request → FetchOutcome) (text : String) (a : UpdateArgs) :
    Except UpdErr (Bool × Option String) × Effects :=
  match findTarget (pySplitlines text) a.tvgId a.groupFilter with
  | none => (Except.error UpdErr.notFound, noEffects)
  | some target =>
    if !needsChange (blockOf (pySplitlines text) target) a.newUrl a.referrer a.userAgent then
      (Except.ok (false, (blockOf (pySplitlines text) target).existingUrl), noEffects)
    else if !validate_url net a.newUrl a.referrer a.userAgent none then
      (Except.error UpdErr.validationFailed, noEffects)
    else if a.dryRun then
      (Except.ok (true, (blockOf (pySplitlines text) target).existingUrl), noEffects)
    else
      (Except.ok (true, (blockOf (pySplitlines text) target).existingUrl),
        { backupWritten := if a.backupDirProvided then some text else none
          fileWritten :=
            some (pyJoinNL (newLinesOf (pySplitlines text)
              (blockOf (pySplitlines text) target) a.newUrl a.referrer a.userAgent) ++ "\n") })

/-- `update_m3u_file` from the raw bytes of the playlist file
(`read_text` applies universal-newline decoding first). -/
def update_m3u_file (net : Request → FetchOutcome) (raw : String) (a : UpdateArgs) :
    Except UpdErr (Bool × Option String) × Effects :=
  updateText net (readText raw) a

/-! ## Cache consultation in the orchestrator (scripts/update_playlist.py lines 118-127) -/

/-- One cache entry as read back from `last_good.json`: `url` is `None`
when the key is absent, `expiresAt` is the value of
`cinfo.get("expires_at", 0)`.  Wall-clock instants are modelled as
integers. -/
structure CacheInfo where
  url : Option String
  expiresAt : Int
deriving DecidableEq

/-- The cached candidate accepted for this run, if any: requires a
non-empty cached url, `time.time() < expires`, and a live re-validation
by `_validate_url(url, None, None)`. -/
def cacheCandidate (net : Request → FetchOutcome) (cinfo : Option CacheInfo)
    (now : Int) : Option (String × Option String × Option String) :=
  match cinfo with
  | none => none
  | some c =>
    match c.url with
    | none => none
    | some u =>
      if u != "" && decide (now < c.expiresAt) then
        if validate_url net u none none none then some (u, none, none) else none
      else none

/-- The candidate a channel proceeds with: the cached one when accepted,
otherwise whatever the source-probing loop produces. -/
def channelCandidate (net : Request → FetchOutcome) (cinfo : Option CacheInfo)
    (now : Int) (probed : Option (String × Option String × Option String)) :
    Option (String × Option String × Option String) :=
  match cacheCandidate net cinfo now with
  | some c => some c
  | none => probed

/-! ## Well-formedness predicates and concrete sample data used by witnesses -/

/-- The string contains no character on which `splitlines` would split. -/
def noBoundary (s : String) : Bool := s.data.all (fun c => !isLineBoundaryChar c)

/-- Every line is free of line-boundary characters. -/
def linesWf (ls : List String) : Bool := ls.all noBoundary

/-- Sanity of a URL string as placed on its own playlist line: stable
under `strip`, non-empty, not a comment line, and free of line
boundaries. -/
def urlSane (u : String) : Bool :=
  (pyStrip u == u) && (u != "") && !(startsWithS u "#") && noBoundary u

/-- Sanity of a supplied option value: stable under `strip` and free of
line boundaries (vacuous when the option is not supplied). -/
def optSane : Option String → Bool
  | none => true
  | some r => (pyStrip r == r) && noBoundary r

/-- Network oracle answering every request with a `200` MPEG-URL
response (validation always succeeds). -/
def netYes : Request → FetchOutcome :=
  fun _ => .resp ⟨200, "application/vnd.apple.mpegurl", ""⟩ false

/-- Network oracle failing every request at the transport level
(validation always fails). -/
def netNo : Request → FetchOutcome := fun _ => .transportErr

/-- Sample playlist content realising the spec's end-to-end scenario. -/
def sampleRaw : String :=
  "#EXTINF:-1 tvg-id=\"CH1\" group-title=\"HD\",Channel One\n" ++
  "#EXTVLCOPT:http-referrer=https://old\nhttps://old.url/a.m3u8\n"

/-- Arguments of the spec's end-to-end scenario: update CH1 to a new URL,
no explicit referrer/user-agent, no group filter, no backups. -/
def sampleArgs : UpdateArgs :=
  ⟨"CH1", "https://new.url/b.m3u8", false, none, none, false, none⟩

/-- Sample playlist whose first line uses a CRLF terminator. -/
def crlfRaw : String :=
  "before\r\n#EXTINF:-1 tvg-id=\"CH1\",X\nhttp://old/a.m3u8\n"

/-- Header line carrying the SPORT.TV2 identifier in group SD together
with the display label Sport TV 2. -/
def sdHeader : String :=
  "#EXTINF:-1 tvg-id=\"SPORT.TV2\" group-title=\"SD\",Sport TV 2"

/-- Playlist whose only SPORT.TV2 entry is in group SD. -/
def sdLines : List String := [sdHeader, "http://old/x.m3u8"]

/-- The option-line value that survives a rewrite: the desired value if
supplied, else the previously recorded one (if any). -/
def pickOpt (desired existing : Option String) : Option String :=
  match desired with
  | some r => some r
  | none => existing

/-! ## Theorems -/

theorem boolIfChain (a b : Bool) :
    (if a = true then true else if b = true then true else false) = (a || b) := by
  cases a <;> cases b <;> simp

/-- Claim C1, counterexample to the literal reading: a 200 response with
an unrelated content-type whose body prefix is `" #EXTX"` (leading
space, then the generic extension-tag prefix, containing no canonical
header token) is accepted by the code, yet the claim's classification —
which tests "begins with the generic extension-tag prefix" without
stripping — classifies it as invalid.  So the claimed "if and only if"
fails. -/
theorem c1_counterexample :
    validateOutcome "http://example.com/stream"
        (.resp ⟨200, "text/plain", " #EXTX"⟩ false) = true ∧
    specC1Literal "http://example.com/stream" 200 "text/plain" " #EXTX" = false := by
  exact ⟨by decide, by decide⟩

/-- Claim C1 (amended): for every call of `_validate_url` that receives
an HTTP response, the result is true if and only if the status is 200
and (the content-type contains an MPEG-URL marker or the url ends with
the manifest extension), or the status is 200 and the permissively
decoded body prefix contains a canonical playlist header token or —
after stripping surrounding whitespace — begins with the generic
extension-tag prefix; in every other case (including a 404 whose body
starts with `#EXTM3U`) the result is false.  A failed body read is
classified as an empty body. -/
theorem c1_classification (url : String) (r : HttpResponse) (rf : Bool) :
    validateOutcome url (.resp r rf) =
      specC1Amended url r.status r.contentType (if rf then "" else r.bodyPrefix) := by
  unfold validateOutcome classifyResponse specC1Amended
  cases rf <;> exact boolIfChain _ _

/-- Claim C8, counterexample: an error while reading the body prefix
does not always yield `false` — with status 200 and an MPEG-URL
content-type the code still returns `true` (the read error is replaced
by an empty body and classification proceeds). -/
theorem c8_counterexample :
    validateOutcome "http://example.com/stream"
      (.resp ⟨200, "application/vnd.apple.mpegurl", ""⟩ true) = true := by
  decide

/-- Claim C8 (amended): `_validate_url` never lets an exception escape —
it is a total Boolean function of the fetch outcome; any failure of the
request itself (timeout, DNS failure, connection reset, or any other
exception in the `try` block) yields `false`; an error while reading the
body prefix is treated as an empty body, after which classification
proceeds normally (and may still succeed via the content-type rule). -/
theorem c8_total_and_transport_false (net : Request → FetchOutcome)
    (url : String) (ref ua : Option String) (ck : Option (List (String × String))) :
    (net ⟨url, ref, ua, ck⟩ = FetchOutcome.transportErr →
      validate_url net url ref ua ck = false) ∧
    (∀ r : HttpResponse,
      validateOutcome url (.resp r true) =
        validateOutcome url (.resp ⟨r.status, r.contentType, ""⟩ false)) := by
  constructor
  · intro h
    unfold validate_url
    rw [h]
    rfl
  · intro r
    rfl

/-- Witness for C8's amended theorem at a concrete input: a transport
failure yields `false`. -/
theorem c8_witness :
    validate_url netNo "http://example.com/stream" none none none = false :=
  (c8_total_and_transport_false netNo "http://example.com/stream" none none none).1 rfl

/-- Claim C3 (code bug): with group filter `HD`, the only line carrying
`tvg-id="SPORT.TV2"` has group `SD` and is correctly rejected by the
primary scan — but because the id is in the SPORT.TV family, the scan
then falls through to the numeric fallback, which selects that very
line (index 0) by its `Sport TV 2` label.  The claim (and the spec's
group-filter exactness property) says a group-filter rejection must
never fall through to the numeric fallback. -/
theorem c3_group_reject_falls_through_to_fallback :
    groupTitleValue sdHeader = some "SD" ∧
    findPrimary sdLines "SPORT.TV2" (some "HD") = none ∧
    findTarget sdLines "SPORT.TV2" (some "HD") = some 0 := by
  exact ⟨by decide, by decide, by decide⟩

/-- Claim C7: the numeric fallback is attempted only when the primary
identifier match failed, and never fires for a channel id outside the
recognized SPORT.TV family: outside the family the locator's result is
exactly the primary match's result, and a successful primary match is
always returned as is. -/
theorem c7_fallback_restriction (lines : List String) (tvgId : String)
    (gf : Option String) :
    (familyId tvgId = false →
      findTarget lines tvgId gf = findPrimary lines tvgId gf) ∧
    (∀ i, findPrimary lines tvgId gf = some i →
      findTarget lines tvgId gf = some i) := by
  constructor
  · intro h
    unfold findTarget findFallback
    rw [h]
    cases findPrimary lines tvgId gf <;> simp
  · intro i h
    unfold findTarget
    rw [h]

/-- Witness for C7 at concrete inputs: `ELEVEN1` never matches via the
fallback even though a `Sport TV 1` label exists; a primary match is
returned unchanged. -/
theorem c7_witness :
    findTarget ["#EXTINF:-1 tvg-id=\"X\",Sport TV 1", "u"] "ELEVEN1" none = none ∧
    findTarget sdLines "SPORT.TV2" none = some 0 := by
  constructor
  · exact ((c7_fallback_restriction _ _ _).1 (by decide)).trans (by decide)
  · exact (c7_fallback_restriction _ _ _).2 0 (by decide)

/-- Claim C9: a cached entry whose `expires_at` is not strictly in the
future is never served from cache — the channel proceeds with whatever
the probing loop produces; and whenever the cache step does accept a
candidate, it is the cached url, it is unexpired, and it passed a live
`_validate_url` re-validation. -/
theorem c9_cache_expiry_and_revalidation (net : Request → FetchOutcome)
    (c : CacheInfo) (now : Int)
    (probed : Option (String × Option String × Option String)) :
    (¬ now < c.expiresAt →
      channelCandidate net (some c) now probed = probed) ∧
    (∀ u r v, cacheCandidate net (some c) now = some (u, r, v) →
      c.url = some u ∧ now < c.expiresAt ∧
        validate_url net u none none none = true) := by
  obtain ⟨cu, ce⟩ := c
  constructor
  · intro h
    have hd : decide (now < ce) = false := by
      simpa using h
    unfold channelCandidate cacheCandidate
    cases cu with
    | none => rfl
    | some u => simp [hd]
  · intro u r v h
    simp only [cacheCandidate] at h
    cases cu with
    | none => simp at h
    | some u2 =>
      simp only at h
      by_cases hc : (u2 != "" && decide (now < ce)) = true
      · rw [if_pos hc] at h
        by_cases hv : validate_url net u2 none none none = true
        · rw [if_pos hv] at h
          have h2 : u2 = u ∧ (none : Option String) = r ∧ (none : Option String) = v := by
            simpa using h
          obtain ⟨hq, _, _⟩ := h2
          subst hq
          refine ⟨rfl, ?_, hv⟩
          have := (Bool.and_eq_true _ _).mp hc
          exact of_decide_eq_true this.2
        · rw [if_neg hv] at h
          simp at h
      · rw [if_neg hc] at h
        simp at h

/-- Claim C10: with `dry_run=True` the call writes neither the playlist
file nor a backup, while the returned value (including a raised
validation error) is exactly what the corresponding non-dry-run call
returns. -/
theorem c10_dry_run_pure (net : Request → FetchOutcome) (raw : String)
    (tvg newUrl : String) (ref ua : Option String) (bak : Bool) (gf : Option String) :
    (update_m3u_file net raw ⟨tvg, newUrl, true, ref, ua, bak, gf⟩).1 =
      (update_m3u_file net raw ⟨tvg, newUrl, false, ref, ua, bak, gf⟩).1 ∧
    (update_m3u_file net raw ⟨tvg, newUrl, true, ref, ua, bak, gf⟩).2 = noEffects := by
  unfold update_m3u_file updateText
  dsimp only
  cases h : findTarget (pySplitlines (readText raw)) tvg gf with
  | none => exact ⟨rfl, rfl⟩
  | some t =>
    dsimp only
    cases hc : needsChange (blockOf (pySplitlines (readText raw)) t) newUrl ref ua <;>
      cases hv : validate_url net newUrl ref ua none <;>
        simp [hc, hv]

/-- Claim C5: whenever a change is needed, the candidate URL is
validated before any mutation: if validation fails, the call raises the
validation error and neither the playlist file nor a backup is written
(the document is left untouched). -/
theorem c5_validation_guards_mutation (net : Request → FetchOutcome)
    (raw : String) (a : UpdateArgs) (t : Nat)
    (ht : findTarget (pySplitlines (readText raw)) a.tvgId a.groupFilter = some t)
    (hc : needsChange (blockOf (pySplitlines (readText raw)) t)
      a.newUrl a.referrer a.userAgent = true)
    (hv : validate_url net a.newUrl a.referrer a.userAgent none = false) :
    update_m3u_file net raw a = (Except.error UpdErr.validationFailed, noEffects) := by
  unfold update_m3u_file updateText
  rw [ht]
  simp [hc, hv]

/-- Witness for C5: on the sample playlist with an always-failing
network, the needed change aborts with a validation error and no write. -/
theorem c5_witness :
    update_m3u_file netNo sampleRaw sampleArgs =
      (Except.error UpdErr.validationFailed, noEffects) :=
  c5_validation_guards_mutation netNo sampleRaw sampleArgs 0
    (by decide) (by decide) (by decide)

/-- Claim C6: when the entry is rewritten, the replaceable block is
replaced wholesale by at most one referrer option line (the desired
value if supplied, else the previously recorded one if any, else
omitted), then at most one user-agent option line under the same rule,
then exactly one URL line carrying `newUrl`; everything before the block
start and from the block end onwards is carried over, and the call
returns `(true, existingUrl)`. -/
theorem c6_rewrite_block_shape (net : Request → FetchOutcome)
    (raw : String) (a : UpdateArgs) (t : Nat) (b : Block)
    (ht : findTarget (pySplitlines (readText raw)) a.tvgId a.groupFilter = some t)
    (hb : b = blockOf (pySplitlines (readText raw)) t)
    (hc : needsChange b a.newUrl a.referrer a.userAgent = true)
    (hv : validate_url net a.newUrl a.referrer a.userAgent none = true)
    (hd : a.dryRun = false) :
    update_m3u_file net raw a =
      (Except.ok (true, b.existingUrl),
        ⟨if a.backupDirProvided then some (readText raw) else none,
         some (pyJoinNL (
           (pySplitlines (readText raw)).take b.startReplace ++
           ((match a.referrer with
             | some r => [refMark ++ r]
             | none =>
               match b.existingRef with
               | some r => [refMark ++ r]
               | none => []) ++
            (match a.userAgent with
             | some u => [uaMark ++ u]
             | none =>
               match b.existingUa with
               | some u => [uaMark ++ u]
               | none => [])) ++
           [a.newUrl] ++
           (pySplitlines (readText raw)).drop
             (max b.startReplace
               (min b.endReplace (pySplitlines (readText raw)).length))) ++ "\n")⟩) := by
  subst hb
  unfold update_m3u_file updateText
  rw [ht]
  simp only [hc, hv, hd, Bool.not_true, Bool.false_eq_true, if_false, if_true,
    Bool.not_false, Bool.true_eq_false]
  rfl

/-- Witness for C6: the spec's end-to-end scenario — entry CH1 with an
existing referrer option, updated to a new URL with no explicit options
— yields the preserved referrer line followed by the new URL, and
returns `(true, "https://old.url/a.m3u8")`. -/
theorem c6_witness :
    update_m3u_file netYes sampleRaw sampleArgs =
      (Except.ok (true, some "https://old.url/a.m3u8"),
        ⟨none,
         some ("#EXTINF:-1 tvg-id=\"CH1\" group-title=\"HD\",Channel One\n" ++
           "#EXTVLCOPT:http-referrer=https://old\nhttps://new.url/b.m3u8\n")⟩) :=
  (c6_rewrite_block_shape netYes sampleRaw sampleArgs 0
      (blockOf (pySplitlines (readText sampleRaw)) 0)
      (by decide) rfl (by decide) (by decide) rfl).trans (by decide)

/-- Witness for C9: an entry expiring exactly now is not served (the
probed candidate is used instead), and an accepted cache hit is the
cached url, unexpired and re-validated. -/
theorem c9_witness :
    channelCandidate netYes (some ⟨some "http://u/x.m3u8", 100⟩) 100
        (some ("http://probed/y.m3u8", none, none)) =
      some ("http://probed/y.m3u8", none, none) ∧
    ((⟨some "http://cached/x.m3u8", 100⟩ : CacheInfo).url = some "http://cached/x.m3u8" ∧
      (50 : Int) < (⟨some "http://cached/x.m3u8", 100⟩ : CacheInfo).expiresAt ∧
      validate_url netYes "http://cached/x.m3u8" none none none = true) := by
  constructor
  · exact (c9_cache_expiry_and_revalidation netYes ⟨some "http://u/x.m3u8", 100⟩ 100
      (some ("http://probed/y.m3u8", none, none))).1 (by decide)
  · exact (c9_cache_expiry_and_revalidation netYes ⟨some "http://cached/x.m3u8", 100⟩ 50
      none).2 "http://cached/x.m3u8" none none (by decide)

/-! ## Helper lemmas on the string and line primitives -/

theorem sExt {a b : String} (h : a.data = b.data) : a = b :=
  congrArg String.mk h

theorem sData_append (a b : String) : (a ++ b).data = a.data ++ b.data :=
  String.data_append a b

theorem sMk_data (l : List Char) : (⟨l⟩ : String).data = l := rfl

theorem sEta (s : String) : (⟨s.data⟩ : String) = s := by
  cases s; rfl

theorem joinNL_append (a b : List String) :
    joinNL (a ++ b) = joinNL a ++ joinNL b := by
  induction a with
  | nil =>
    apply sExt
    simp [joinNL, sData_append]
  | cons l ls ih =>
    show l ++ "\n" ++ joinNL (ls ++ b) = l ++ "\n" ++ joinNL ls ++ joinNL b
    rw [ih]
    simp [String.append_assoc]

theorem pyJoinNL_newline (ls : List String) (h : ls ≠ []) :
    pyJoinNL ls ++ "\n" = joinNL ls := by
  induction ls with
  | nil => exact absurd rfl h
  | cons l t ih =>
    cases t with
    | nil =>
      apply sExt
      simp [pyJoinNL, joinNL, sData_append]
    | cons l2 t2 =>
      apply sExt
      have ih2 := ih (by simp)
      simp only [pyJoinNL, joinNL] at *
      rw [← ih2]
      simp [sData_append, List.append_assoc]

theorem joinNL_data_mem (ls : List String) (c : Char)
    (h : c ∈ (joinNL ls).data) : c = '\n' ∨ ∃ l ∈ ls, c ∈ l.data := by
  induction ls with
  | nil => simp [joinNL] at h
  | cons l t ih =>
    simp only [joinNL, sData_append] at h
    rcases List.mem_append.mp h with h1 | h2
    · rcases List.mem_append.mp h1 with ha | hb
      · exact Or.inr ⟨l, by simp, ha⟩
      · left
        simpa using hb
    · rcases ih h2 with ha | ⟨x, hx, hc⟩
      · exact Or.inl ha
      · exact Or.inr ⟨x, by simp [hx], hc⟩

theorem noBoundary_iff (s : String) :
    noBoundary s = true ↔ ∀ c ∈ s.data, isLineBoundaryChar c = false := by
  unfold noBoundary
  rw [List.all_eq_true]
  constructor
  · intro h c hc
    simpa using h c hc
  · intro h c hc
    simpa using h c hc

theorem linesWf_iff (ls : List String) :
    linesWf ls = true ↔ ∀ l ∈ ls, noBoundary l = true := by
  unfold linesWf
  rw [List.all_eq_true]

theorem splitlinesAux_chunk (l : List Char)
    (hl : ∀ c ∈ l, isLineBoundaryChar c = false) :
    ∀ (rest acc : List Char),
      splitlinesAux (l ++ rest) false acc =
        splitlinesAux rest false (l.reverse ++ acc) := by
  induction l with
  | nil => intro rest acc; simp
  | cons c t ih =>
    intro rest acc
    have hc := hl c (by simp)
    have hn : ¬ c = '\n' := by
      intro e; subst e; simp [isLineBoundaryChar] at hc
    have hr : ¬ c = '\r' := by
      intro e; subst e; simp [isLineBoundaryChar] at hc
    have ht : ∀ x ∈ t, isLineBoundaryChar x = false := fun x hx => hl x (by simp [hx])
    have step : splitlinesAux ((c :: t) ++ rest) false acc =
        splitlinesAux (t ++ rest) false (c :: acc) := by
      show splitlinesAux (c :: (t ++ rest)) false acc =
        splitlinesAux (t ++ rest) false (c :: acc)
      simp [splitlinesAux, if_neg hn, if_neg hr, hc]
    rw [step, ih ht rest (c :: acc)]
    simp

theorem pySplitlines_joinNL (ls : List String) (hwf : linesWf ls = true) :
    pySplitlines (joinNL ls) = ls := by
  induction ls with
  | nil => rfl
  | cons l t ih =>
    have hl : ∀ c ∈ l.data, isLineBoundaryChar c = false :=
      (noBoundary_iff l).mp ((linesWf_iff _).mp hwf l (by simp))
    have ht : linesWf t = true := by
      rw [linesWf_iff] at hwf ⊢
      intro x hx
      exact hwf x (by simp [hx])
    have hdata : (joinNL (l :: t)).data = l.data ++ ('\n' :: (joinNL t).data) := by
      show ((l ++ "\n") ++ joinNL t).data = _
      rw [sData_append, sData_append]
      simp
    unfold pySplitlines
    rw [hdata, splitlinesAux_chunk l.data hl ('\n' :: (joinNL t).data) []]
    have step : splitlinesAux ('\n' :: (joinNL t).data) false (l.data.reverse ++ []) =
        (l.data.reverse ++ []).reverse :: splitlinesAux (joinNL t).data false [] := by
      simp [splitlinesAux]
    rw [step, List.map_cons]
    have hrev : ((l.data.reverse ++ []).reverse : List Char) = l.data := by simp
    rw [hrev]
    have ihx : (splitlinesAux (joinNL t).data false []).map
        (fun l => (⟨l⟩ : String)) = t := ih ht
    rw [ihx, sEta]

theorem splitlinesAux_wf : ∀ (cs : List Char) (flag : Bool) (acc : List Char),
    (∀ c ∈ acc, isLineBoundaryChar c = false) →
    ∀ l ∈ splitlinesAux cs flag acc, ∀ c ∈ l, isLineBoundaryChar c = false := by
  intro cs
  induction cs with
  | nil =>
    intro flag acc hacc l hl c hc
    simp only [splitlinesAux] at hl
    split at hl
    · simp at hl
    · simp only [List.mem_singleton] at hl
      subst hl
      exact hacc c (by simpa using hc)
  | cons d t ih =>
    intro flag acc hacc l hl c hc
    by_cases hdn : d = '\n'
    · subst hdn
      simp only [splitlinesAux, if_pos rfl] at hl
      cases flag with
      | true => exact ih false acc hacc l hl c hc
      | false =>
        rcases List.mem_cons.mp hl with h1 | h2
        · subst h1
          exact hacc c (by simpa using hc)
        · exact ih false [] (by simp) l h2 c hc
    · by_cases hdr : d = '\r'
      · subst hdr
        simp only [splitlinesAux, if_neg hdn, if_pos rfl] at hl
        rcases List.mem_cons.mp hl with h1 | h2
        · subst h1
          exact hacc c (by simpa using hc)
        · exact ih true [] (by simp) l h2 c hc
      · by_cases hdb : isLineBoundaryChar d = true
        · simp only [splitlinesAux, if_neg hdn, if_neg hdr, hdb, if_true] at hl
          rcases List.mem_cons.mp hl with h1 | h2
          · subst h1
            exact hacc c (by simpa using hc)
          · exact ih false [] (by simp) l h2 c hc
        · have hdb2 : isLineBoundaryChar d = false := by
            simpa using hdb
          simp only [splitlinesAux, if_neg hdn, if_neg hdr, hdb2,
            Bool.false_eq_true, if_false] at hl
          refine ih false (d :: acc) ?_ l hl c hc
          intro x hx
          rcases List.mem_cons.mp hx with h1 | h2
          · subst h1; exact hdb2
          · exact hacc x h2

theorem pySplitlines_wf (s : String) : linesWf (pySplitlines s) = true := by
  rw [linesWf_iff]
  intro l hl
  unfold pySplitlines at hl
  rcases List.mem_map.mp hl with ⟨d, hd, he⟩
  subst he
  rw [noBoundary_iff]
  intro c hc
  exact splitlinesAux_wf s.data false [] (by simp) d hd c hc

theorem readTextAux_noCR (cs : List Char) (h : ∀ c ∈ cs, ¬ c = '\r') :
    readTextAux cs false = cs := by
  induction cs with
  | nil => rfl
  | cons d t ih =>
    have hd := h d (by simp)
    have ht : ∀ c ∈ t, ¬ c = '\r' := fun c hc => h c (by simp [hc])
    by_cases hdn : d = '\n'
    · subst hdn
      have step : readTextAux ('\n' :: t) false = '\n' :: readTextAux t false := by
        simp [readTextAux]
      rw [step, ih ht]
    · have step : readTextAux (d :: t) false = d :: readTextAux t false := by
        simp [readTextAux, hdn, hd]
      rw [step, ih ht]

theorem readText_joinNL (ls : List String) (hwf : linesWf ls = true) :
    readText (joinNL ls) = joinNL ls := by
  apply sExt
  show readTextAux (joinNL ls).data false = (joinNL ls).data
  apply readTextAux_noCR
  intro c hc hcr
  rcases joinNL_data_mem ls c hc with h | ⟨l, hl, hcl⟩
  · rw [hcr] at h
    simp at h
  · have hb := (noBoundary_iff l).mp ((linesWf_iff _).mp hwf l hl) c hcl
    rw [hcr] at hb
    simp [isLineBoundaryChar] at hb

theorem firstIdx_eq_none_iff (p : α → Bool) (l : List α) :
    firstIdx p l = none ↔ ∀ x ∈ l, p x = false := by
  induction l with
  | nil => simp [firstIdx]
  | cons x xs ih =>
    by_cases hx : p x = true
    · simp [firstIdx, hx]
    · have hx2 : p x = false := by simpa using hx
      simp [firstIdx, hx2, ih]

theorem firstIdx_lt_length (p : α → Bool) (l : List α) (i : Nat)
    (h : firstIdx p l = some i) : i < l.length := by
  induction l generalizing i with
  | nil => simp [firstIdx] at h
  | cons x xs ih =>
    by_cases hx : p x = true
    · simp [firstIdx, hx] at h
      subst h
      simp
    · have hx2 : p x = false := by simpa using hx
      simp only [firstIdx, hx2, Bool.false_eq_true, if_false] at h
      rcases Option.map_eq_some'.mp h with ⟨j, hj, he⟩
      have := ih j hj
      simp
      omega

theorem firstIdx_prefix_stable (p : α → Bool) (l l' : List α) (i : Nat)
    (h : firstIdx p l = some i) (hp : l'.take (i + 1) = l.take (i + 1)) :
    firstIdx p l' = some i := by
  induction i generalizing l l' with
  | zero =>
    cases l with
    | nil => simp [firstIdx] at h
    | cons x xs =>
      by_cases hx : p x = true
      · cases l' with
        | nil => simp at hp
        | cons y ys =>
          simp at hp
          subst hp
          simp [firstIdx, hx]
      · have hx2 : p x = false := by simpa using hx
        simp only [firstIdx, hx2, Bool.false_eq_true, if_false] at h
        rcases Option.map_eq_some'.mp h with ⟨j, _, he⟩
        omega
  | succ n ih =>
    cases l with
    | nil => simp [firstIdx] at h
    | cons x xs =>
      cases l' with
      | nil => simp at hp
      | cons y ys =>
        simp only [List.take_succ_cons, List.cons.injEq] at hp
        by_cases hx : p x = true
        · simp [firstIdx, hx] at h
        · have hx2 : p x = false := by simpa using hx
          simp only [firstIdx, hx2, Bool.false_eq_true, if_false] at h
          rcases Option.map_eq_some'.mp h with ⟨j, hj, he⟩
          have hjn : j = n := by omega
          subst hjn
          have hy2 : p y = false := by rw [hp.1]; exact hx2
          simp only [firstIdx, hy2, Bool.false_eq_true, if_false]
          rw [ih xs ys hj hp.2]
          rfl

theorem countBlanks_le (l : List String) : countBlanks l ≤ l.length := by
  induction l with
  | nil => simp [countBlanks]
  | cons x xs ih =>
    simp only [countBlanks]
    split <;> simp <;> omega

theorem countComments_le (l : List String) : countComments l ≤ l.length := by
  induction l with
  | nil => simp [countComments]
  | cons x xs ih =>
    simp only [countComments]
    split <;> simp <;> omega

theorem countBlanks_take_blank (l : List String) :
    ∀ x ∈ l.take (countBlanks l), pyStrip x = "" := by
  induction l with
  | nil => simp
  | cons y ys ih =>
    by_cases hy : (pyStrip y == "") = true
    · have hy2 : pyStrip y = "" := by simpa using hy
      simp only [countBlanks, hy, if_true, List.take_succ_cons]
      intro x hx
      rcases List.mem_cons.mp hx with h1 | h2
      · subst h1; exact hy2
      · exact ih x h2
    · have hy2 : (pyStrip y == "") = false := by simpa using hy
      simp [countBlanks, hy2]

theorem countBlanks_append (b r : List String)
    (hb : ∀ x ∈ b, pyStrip x = "") :
    countBlanks (b ++ r) = b.length + countBlanks r := by
  induction b with
  | nil => simp
  | cons y ys ih =>
    have hy : (pyStrip y == "") = true := by
      simpa using hb y (by simp)
    simp only [List.cons_append, countBlanks, hy, if_true, List.length_cons]
    show countBlanks (ys ++ r) + 1 = ys.length + 1 + countBlanks r
    rw [ih (fun x hx => hb x (by simp [hx]))]
    omega

theorem countBlanks_cons_of_ne (x : String) (r : List String)
    (h : ¬ pyStrip x = "") : countBlanks (x :: r) = 0 := by
  have h2 : (pyStrip x == "") = false := by simpa using h
  simp [countBlanks, h2]

theorem countComments_append (b r : List String)
    (hb : ∀ x ∈ b, startsWithS x "#" = true) :
    countComments (b ++ r) = b.length + countComments r := by
  induction b with
  | nil => simp
  | cons y ys ih =>
    have hy := hb y (by simp)
    simp only [List.cons_append, countComments, hy, if_true, List.length_cons]
    show countComments (ys ++ r) + 1 = ys.length + 1 + countComments r
    rw [ih (fun x hx => hb x (by simp [hx]))]
    omega

theorem countComments_cons_of_ne (x : String) (r : List String)
    (h : startsWithS x "#" = false) : countComments (x :: r) = 0 := by
  simp [countComments, h]

theorem countComments_take_hash (l : List String) :
    ∀ x ∈ l.take (countComments l), startsWithS x "#" = true := by
  induction l with
  | nil => simp
  | cons y ys ih =>
    by_cases hy : startsWithS y "#" = true
    · simp only [countComments, hy, if_true, List.take_succ_cons]
      intro x hx
      rcases List.mem_cons.mp hx with h1 | h2
      · subst h1; exact hy
      · exact ih x h2
    · have hy2 : startsWithS y "#" = false := by simpa using hy
      simp [countComments, hy2]

theorem findTarget_lt_length (lines : List String) (tvgId : String)
    (gf : Option String) (t : Nat)
    (h : findTarget lines tvgId gf = some t) : t < lines.length := by
  unfold findTarget at h
  cases hp : findPrimary lines tvgId gf with
  | some i =>
    rw [hp] at h
    simp at h
    subst h
    exact firstIdx_lt_length _ _ _ hp
  | none =>
    rw [hp] at h
    simp only at h
    rw [show findFallback lines tvgId =
        (if familyId tvgId then
          (if (trailingDigits tvgId).isEmpty then none
           else firstIdx (fallbackHit (trailingDigits tvgId)) lines)
         else none) from rfl] at h
    by_cases hf : familyId tvgId = true
    · rw [if_pos hf] at h
      by_cases he : (trailingDigits tvgId).isEmpty = true
      · rw [if_pos he] at h
        simp at h
      · rw [if_neg he] at h
        exact firstIdx_lt_length _ _ _ h
    · rw [if_neg hf] at h
      simp at h

theorem blockOf_startReplace (lines : List String) (t : Nat) :
    (blockOf lines t).startReplace = t + 1 + countBlanks (lines.drop (t + 1)) := rfl

theorem blockOf_endReplace (lines : List String) (t : Nat) :
    (blockOf lines t).endReplace =
      endReplaceAt lines ((blockOf lines t).startReplace +
        countComments (lines.drop (blockOf lines t).startReplace)) := rfl

theorem startReplace_le_length (lines : List String) (t : Nat)
    (h : t < lines.length) : (blockOf lines t).startReplace ≤ lines.length := by
  rw [blockOf_startReplace]
  have h1 := countBlanks_le (lines.drop (t + 1))
  rw [List.length_drop] at h1
  omega

/-- Claim C2, counterexample: the first line of the file uses a CRLF
terminator and lies entirely before the updated entry's block, yet the
rewritten file no longer contains the bytes `"before\r\n"` anywhere —
`read_text`'s universal-newline decoding plus the uniform `"\n"`-joined
rewrite normalise bytes outside the replaced block. -/
theorem c2_counterexample :
    (update_m3u_file netYes crlfRaw sampleArgs).2.fileWritten =
      some "before\n#EXTINF:-1 tvg-id=\"CH1\",X\nhttps://new.url/b.m3u8\n" ∧
    startsWithS crlfRaw "before\r\n" = true ∧
    containsSub "before\n#EXTINF:-1 tvg-id=\"CH1\",X\nhttps://new.url/b.m3u8\n"
      "before\r\n" = false := by
  exact ⟨by decide, by decide, by decide⟩

/-- Claim C2 (amended): for a playlist file consisting of
newline-terminated lines (uniform `\n` terminators, trailing newline —
the shape the mutator itself writes), every successful non-dry-run
rewrite of the entry located at `t` touches exactly that entry's
replaced block: with `s` the block start and `e` the block end (clamped
to the file) recorded by the locator, the original file is the bytes
`prefix ++ block ++ suffix` split at `s` and `e`, and the written file
is exactly the same prefix bytes, then the replacement block (the
option lines and the new URL), then the same suffix bytes — no byte
outside the replaced region changes. -/
theorem c2_frame_preservation (net : Request → FetchOutcome) (lines : List String)
    (a : UpdateArgs) (newText : String) (t : Nat)
    (hwf : linesWf lines = true)
    (ht : findTarget lines a.tvgId a.groupFilter = some t)
    (hw : (update_m3u_file net (joinNL lines) a).2.fileWritten = some newText) :
    (blockOf lines t).startReplace ≤
        max (blockOf lines t).startReplace
          (min (blockOf lines t).endReplace lines.length) ∧
    max (blockOf lines t).startReplace
        (min (blockOf lines t).endReplace lines.length) ≤ lines.length ∧
    joinNL lines =
      joinNL (lines.take (blockOf lines t).startReplace) ++
        joinNL ((lines.drop (blockOf lines t).startReplace).take
          (max (blockOf lines t).startReplace
              (min (blockOf lines t).endReplace lines.length) -
            (blockOf lines t).startReplace)) ++
        joinNL (lines.drop (max (blockOf lines t).startReplace
          (min (blockOf lines t).endReplace lines.length))) ∧
    newText =
      joinNL (lines.take (blockOf lines t).startReplace) ++
        joinNL (insertLinesOf (blockOf lines t) a.referrer a.userAgent ++
          [a.newUrl]) ++
        joinNL (lines.drop (max (blockOf lines t).startReplace
          (min (blockOf lines t).endReplace lines.length))) := by
  unfold update_m3u_file at hw
  rw [readText_joinNL lines hwf] at hw
  unfold updateText at hw
  rw [pySplitlines_joinNL lines hwf] at hw
  simp only [ht] at hw
  by_cases hc : needsChange (blockOf lines t) a.newUrl a.referrer a.userAgent = true
  swap
  · simp [hc, noEffects] at hw
  by_cases hv : validate_url net a.newUrl a.referrer a.userAgent none = true
  swap
  · simp [hc, hv, noEffects] at hw
  by_cases hd : a.dryRun = true
  · simp [hc, hv, hd, noEffects] at hw
  · simp only [hc, hv, hd, Bool.not_true, Bool.not_false, Bool.false_eq_true,
      if_false, if_true, Option.some.injEq] at hw
    have hts : t < lines.length := findTarget_lt_length lines a.tvgId a.groupFilter t ht
    have hsle : (blockOf lines t).startReplace ≤ lines.length :=
      startReplace_le_length lines t hts
    refine ⟨le_max_left _ _, max_le hsle (min_le_right _ _), ?_, ?_⟩
    · set s := (blockOf lines t).startReplace with hs
      set e := max (blockOf lines t).startReplace
        (min (blockOf lines t).endReplace lines.length) with he
      have h2 : (lines.drop s).drop (e - s) = lines.drop e := by
        rw [List.drop_drop]
        congr 1
        have : s ≤ e := le_max_left _ _
        omega
      conv_lhs => rw [← List.take_append_drop s lines]
      rw [joinNL_append]
      conv_lhs =>
        rw [← List.take_append_drop (e - s) (lines.drop s)]
      rw [joinNL_append, h2, String.append_assoc]
    · rw [← hw]
      have hne : newLinesOf lines (blockOf lines t) a.newUrl a.referrer a.userAgent ≠ [] := by
        unfold newLinesOf
        simp
      rw [pyJoinNL_newline _ hne]
      unfold newLinesOf
      rw [joinNL_append, joinNL_append, joinNL_append]
      simp only [String.append_assoc]
      rw [joinNL_append]
      simp [String.append_assoc]

/-- Witness for C2's amended theorem: a concrete three-line playlist,
with the entry located at line 1 and its replaced block spanning lines
2 to 3, is rewritten with the prefix and suffix bytes around that block
preserved. -/
theorem c2_witness :
    (blockOf ["alpha", "#EXTINF:-1 tvg-id=\"CH1\",X", "http://old/a.m3u8"]
          1).startReplace ≤
        max (blockOf ["alpha", "#EXTINF:-1 tvg-id=\"CH1\",X", "http://old/a.m3u8"]
            1).startReplace
          (min (blockOf ["alpha", "#EXTINF:-1 tvg-id=\"CH1\",X",
              "http://old/a.m3u8"] 1).endReplace
            (["alpha", "#EXTINF:-1 tvg-id=\"CH1\",X",
              "http://old/a.m3u8"] : List String).length) ∧
    max (blockOf ["alpha", "#EXTINF:-1 tvg-id=\"CH1\",X", "http://old/a.m3u8"]
          1).startReplace
        (min (blockOf ["alpha", "#EXTINF:-1 tvg-id=\"CH1\",X",
            "http://old/a.m3u8"] 1).endReplace
          (["alpha", "#EXTINF:-1 tvg-id=\"CH1\",X",
            "http://old/a.m3u8"] : List String).length) ≤
      (["alpha", "#EXTINF:-1 tvg-id=\"CH1\",X",
        "http://old/a.m3u8"] : List String).length ∧
    joinNL ["alpha", "#EXTINF:-1 tvg-id=\"CH1\",X", "http://old/a.m3u8"] =
      joinNL (List.take (blockOf ["alpha", "#EXTINF:-1 tvg-id=\"CH1\",X",
          "http://old/a.m3u8"] 1).startReplace
        ["alpha", "#EXTINF:-1 tvg-id=\"CH1\",X", "http://old/a.m3u8"]) ++
        joinNL (List.take
          (max (blockOf ["alpha", "#EXTINF:-1 tvg-id=\"CH1\",X",
              "http://old/a.m3u8"] 1).startReplace
            (min (blockOf ["alpha", "#EXTINF:-1 tvg-id=\"CH1\",X",
                "http://old/a.m3u8"] 1).endReplace
              (["alpha", "#EXTINF:-1 tvg-id=\"CH1\",X",
                "http://old/a.m3u8"] : List String).length) -
            (blockOf ["alpha", "#EXTINF:-1 tvg-id=\"CH1\",X",
              "http://old/a.m3u8"] 1).startReplace)
          (List.drop (blockOf ["alpha", "#EXTINF:-1 tvg-id=\"CH1\",X",
              "http://old/a.m3u8"] 1).startReplace
            ["alpha", "#EXTINF:-1 tvg-id=\"CH1\",X", "http://old/a.m3u8"])) ++
        joinNL (List.drop
          (max (blockOf ["alpha", "#EXTINF:-1 tvg-id=\"CH1\",X",
              "http://old/a.m3u8"] 1).startReplace
            (min (blockOf ["alpha", "#EXTINF:-1 tvg-id=\"CH1\",X",
                "http://old/a.m3u8"] 1).endReplace
              (["alpha", "#EXTINF:-1 tvg-id=\"CH1\",X",
                "http://old/a.m3u8"] : List String).length))
          ["alpha", "#EXTINF:-1 tvg-id=\"CH1\",X", "http://old/a.m3u8"]) ∧
    "alpha\n#EXTINF:-1 tvg-id=\"CH1\",X\nhttps://new.url/b.m3u8\n" =
      joinNL (List.take (blockOf ["alpha", "#EXTINF:-1 tvg-id=\"CH1\",X",
          "http://old/a.m3u8"] 1).startReplace
        ["alpha", "#EXTINF:-1 tvg-id=\"CH1\",X", "http://old/a.m3u8"]) ++
        joinNL (insertLinesOf (blockOf ["alpha", "#EXTINF:-1 tvg-id=\"CH1\",X",
            "http://old/a.m3u8"] 1) sampleArgs.referrer sampleArgs.userAgent ++
          [sampleArgs.newUrl]) ++
        joinNL (List.drop
          (max (blockOf ["alpha", "#EXTINF:-1 tvg-id=\"CH1\",X",
              "http://old/a.m3u8"] 1).startReplace
            (min (blockOf ["alpha", "#EXTINF:-1 tvg-id=\"CH1\",X",
                "http://old/a.m3u8"] 1).endReplace
              (["alpha", "#EXTINF:-1 tvg-id=\"CH1\",X",
                "http://old/a.m3u8"] : List String).length))
          ["alpha", "#EXTINF:-1 tvg-id=\"CH1\",X", "http://old/a.m3u8"]) :=
  c2_frame_preservation netYes
    ["alpha", "#EXTINF:-1 tvg-id=\"CH1\",X", "http://old/a.m3u8"] sampleArgs
    "alpha\n#EXTINF:-1 tvg-id=\"CH1\",X\nhttps://new.url/b.m3u8\n" 1
    (by decide) (by decide) (by decide)

/-! ## Helper lemmas for the idempotence argument -/

theorem isPrefixOf_append_self (a b : List Char) : a.isPrefixOf (a ++ b) = true := by
  rw [List.isPrefixOf_iff_prefix]
  exact List.prefix_append a b

theorem isPrefixOf_false_extend (a : List Char) :
    ∀ (b v : List Char), a.isPrefixOf b = false → b.isPrefixOf a = false →
      a.isPrefixOf (b ++ v) = false := by
  induction a with
  | nil => intro b v h1 _; simp [List.isPrefixOf] at h1
  | cons x xs ih =>
    intro b v h1 h2
    cases b with
    | nil => simp [List.isPrefixOf] at h2
    | cons y ys =>
      simp only [List.isPrefixOf, List.cons_append, Bool.and_eq_false_iff] at h1 ⊢
      by_cases hxy : (x == y) = true
      · have hyx : (y == x) = true := by
          have := beq_iff_eq.mp hxy
          simp [this]
        simp only [List.isPrefixOf, hyx, Bool.true_and] at h2
        rcases h1 with h1 | h1
        · rw [hxy] at h1; simp at h1
        · exact Or.inr (ih ys v h1 h2)
      · exact Or.inl (by simpa using hxy)

theorem startsWith_trans (l p q : String) (h1 : startsWithS l p = true)
    (h2 : startsWithS p q = true) : startsWithS l q = true := by
  unfold startsWithS at *
  rw [List.isPrefixOf_iff_prefix] at *
  exact h2.trans h1

theorem dropWhile_eq_self_of_prefix (p : Char → Bool) (y x : List Char)
    (hpre : y <+: x) (hx : x.dropWhile p = x) : y.dropWhile p = y := by
  cases y with
  | nil => rfl
  | cons c t =>
    rcases hpre with ⟨r, hr⟩
    subst hr
    rw [List.dropWhile_eq_self_iff] at hx
    have := hx (by simp)
    simp only [List.get_eq_getElem] at this
    simp only [List.cons_append, List.getElem_cons_zero] at this
    exact List.dropWhile_cons_of_neg this

theorem rdropWhile_eq_self_of_suffix (p : Char → Bool) (y x : List Char)
    (hsuf : y <:+ x) (hx : x.rdropWhile p = x) : y.rdropWhile p = y := by
  unfold List.rdropWhile at hx ⊢
  have hrev : y.reverse <+: x.reverse := List.reverse_prefix.mpr hsuf
  have hx2 : x.reverse.dropWhile p = x.reverse := by
    have := congrArg List.reverse hx
    simpa using this
  have := dropWhile_eq_self_of_prefix p y.reverse x.reverse hrev hx2
  rw [this]
  simp

theorem rdropWhile_append_right (p : Char → Bool) (x y : List Char)
    (h : y.rdropWhile p ≠ []) : (x ++ y).rdropWhile p = x ++ y.rdropWhile p := by
  unfold List.rdropWhile at *
  rw [List.reverse_append, List.dropWhile_append]
  have hne : (y.reverse.dropWhile p).isEmpty = false := by
    rcases h2 : y.reverse.dropWhile p with _ | ⟨c, t⟩
    · exfalso
      apply h
      rw [h2]
      simp
    · rfl
  rw [hne]
  simp

theorem stripData_eq_self_parts (l : List Char) (h : stripData l = l) :
    l.dropWhile isPySpace = l ∧ l.rdropWhile isPySpace = l := by
  unfold stripData at h
  have hd : (l.dropWhile isPySpace).length ≤ l.length :=
    (List.dropWhile_sublist (l := l) isPySpace).length_le
  have hr : ((l.dropWhile isPySpace).rdropWhile isPySpace).length ≤
      (l.dropWhile isPySpace).length :=
    List.IsPrefix.length_le (List.rdropWhile_prefix isPySpace (l.dropWhile isPySpace))
  have hlen : ((l.dropWhile isPySpace).rdropWhile isPySpace).length = l.length := by
    rw [h]
  have h1 : (l.dropWhile isPySpace).length = l.length := by omega
  have h2 : l.dropWhile isPySpace = l :=
    (List.dropWhile_suffix isPySpace).eq_of_length h1
  refine ⟨h2, ?_⟩
  rw [h2] at h
  exact h

theorem mark_append_hash (m v : String) (hm : ∃ t, m.data = '#' :: t) :
    startsWithS (m ++ v) "#" = true := by
  rcases hm with ⟨t, ht⟩
  unfold startsWithS
  rw [sData_append, ht]
  have hq : ("#" : String).data = ['#'] := rfl
  rw [hq]
  simp [List.isPrefixOf]

theorem pyStrip_mark_append (m v : String)
    (hm : ∃ t, m.data = '#' :: t)
    (hmr : m.data.rdropWhile isPySpace = m.data)
    (hv : v.data.rdropWhile isPySpace = v.data) :
    pyStrip (m ++ v) = m ++ v := by
  apply sExt
  show stripData (m ++ v).data = (m ++ v).data
  rw [sData_append]
  rcases hm with ⟨t, ht⟩
  unfold stripData
  have hd : (m.data ++ v.data).dropWhile isPySpace = m.data ++ v.data := by
    rw [ht, List.cons_append]
    exact List.dropWhile_cons_of_neg (by decide)
  rw [hd]
  rcases hvd : v.data with _ | ⟨c, cs⟩
  · simpa using hmr
  · have hne : v.data.rdropWhile isPySpace ≠ [] := by
      rw [hv, hvd]
      simp
    rw [← hvd, rdropWhile_append_right _ _ _ hne, hv]

theorem splitVal_mark_append (m v : String)
    (hm : m.data.dropWhile (fun c => decide (c ≠ '=')) = ['=']) :
    splitVal (m ++ v) = v := by
  apply sExt
  show ((m ++ v).data.dropWhile (fun c => decide (c ≠ '='))).drop 1 = v.data
  rw [sData_append, List.dropWhile_append, hm]
  simp

theorem parseOptsAux_append (acc : Option String × Option String)
    (xs ys : List String) :
    parseOptsAux acc (xs ++ ys) = parseOptsAux (parseOptsAux acc xs) ys := by
  induction xs generalizing acc with
  | nil => rfl
  | cons l ls ih =>
    show parseOptsAux acc (l :: (ls ++ ys)) = _
    simp only [parseOptsAux]
    exact ih _

theorem splitVal_pyStrip_clean (l : String) (hl : noBoundary l = true) :
    (splitVal (pyStrip l)).data.rdropWhile isPySpace = (splitVal (pyStrip l)).data ∧
      noBoundary (splitVal (pyStrip l)) = true := by
  have hx : (pyStrip l).data.rdropWhile isPySpace = (pyStrip l).data := by
    show (stripData l.data).rdropWhile isPySpace = stripData l.data
    unfold stripData
    exact List.rdropWhile_idempotent _ _
  have hsuf : (splitVal (pyStrip l)).data <:+ (pyStrip l).data := by
    show (((pyStrip l).data.dropWhile _).drop 1) <:+ (pyStrip l).data
    exact (List.drop_suffix _ _).trans (List.dropWhile_suffix _)
  constructor
  · exact rdropWhile_eq_self_of_suffix _ _ _ hsuf hx
  · rw [noBoundary_iff] at hl ⊢
    intro c hc
    apply hl
    have hsub : (pyStrip l).data.Sublist l.data := by
      show (stripData l.data).Sublist l.data
      unfold stripData
      exact (List.rdropWhile_prefix _ _).sublist.trans (List.dropWhile_suffix _).sublist
    exact hsub.subset (hsuf.sublist.subset hc)

theorem parseOpts_clean (blk : List String)
    (hwf : ∀ l ∈ blk, noBoundary l = true) :
    ∀ (acc : Option String × Option String),
    (∀ v, acc.1 = some v →
      v.data.rdropWhile isPySpace = v.data ∧ noBoundary v = true) →
    (∀ v, acc.2 = some v →
      v.data.rdropWhile isPySpace = v.data ∧ noBoundary v = true) →
    (∀ v, (parseOptsAux acc blk).1 = some v →
      v.data.rdropWhile isPySpace = v.data ∧ noBoundary v = true) ∧
    (∀ v, (parseOptsAux acc blk).2 = some v →
      v.data.rdropWhile isPySpace = v.data ∧ noBoundary v = true) := by
  induction blk with
  | nil => exact fun acc h1 h2 => ⟨h1, h2⟩
  | cons l ls ih =>
    intro acc h1 h2
    have hval := splitVal_pyStrip_clean l (hwf l (by simp))
    have hwf2 : ∀ x ∈ ls, noBoundary x = true := fun x hx => hwf x (by simp [hx])
    have step : parseOptsAux acc (l :: ls) = parseOptsAux
        (if startsWithS (pyStrip l) uaMark then
          ((if startsWithS (pyStrip l) refMark then
              (some (splitVal (pyStrip l)), acc.2) else acc).1,
            some (splitVal (pyStrip l)))
         else (if startsWithS (pyStrip l) refMark then
            (some (splitVal (pyStrip l)), acc.2) else acc)) ls := rfl
    rw [step]
    refine ih hwf2 _ ?_ ?_
    · intro v hv
      by_cases hua : startsWithS (pyStrip l) uaMark = true <;>
        by_cases href : startsWithS (pyStrip l) refMark = true <;>
          simp only [hua, href, if_true, if_false, Bool.false_eq_true] at hv
      · rw [← (by simpa using hv : splitVal (pyStrip l) = v)]
        exact hval
      · exact h1 v hv
      · rw [← (by simpa using hv : splitVal (pyStrip l) = v)]
        exact hval
      · exact h1 v hv
    · intro v hv
      by_cases hua : startsWithS (pyStrip l) uaMark = true <;>
        by_cases href : startsWithS (pyStrip l) refMark = true <;>
          simp only [hua, href, if_true, if_false, Bool.false_eq_true] at hv
      · rw [← (by simpa using hv : splitVal (pyStrip l) = v)]
        exact hval
      · rw [← (by simpa using hv : splitVal (pyStrip l) = v)]
        exact hval
      · exact h2 v hv
      · exact h2 v hv

theorem urlSane_parts (u : String) (h : urlSane u = true) :
    pyStrip u = u ∧ u ≠ "" ∧ startsWithS u "#" = false ∧ noBoundary u = true := by
  unfold urlSane at h
  simp only [Bool.and_eq_true, beq_iff_eq, bne_iff_ne, ne_eq, Bool.not_eq_true'] at h
  exact ⟨h.1.1.1, h.1.1.2, h.1.2, h.2⟩

theorem optSane_parts (r : String) (h : optSane (some r) = true) :
    pyStrip r = r ∧ noBoundary r = true := by
  unfold optSane at h
  simp only [Bool.and_eq_true, beq_iff_eq] at h
  exact h

theorem pyStrip_self_rdrop (r : String) (h : pyStrip r = r) :
    r.data.rdropWhile isPySpace = r.data := by
  have hd : stripData r.data = r.data := congrArg String.data h
  exact (stripData_eq_self_parts r.data hd).2

theorem refMark_head : ∃ t, refMark.data = '#' :: t :=
  ⟨"EXTVLCOPT:http-referrer=".data, by decide⟩

theorem uaMark_head : ∃ t, uaMark.data = '#' :: t :=
  ⟨"EXTVLCOPT:http-user-agent=".data, by decide⟩

theorem insertLines_hash (b : Block) (ref ua : Option String) :
    ∀ l ∈ insertLinesOf b ref ua, startsWithS l "#" = true := by
  intro l hl
  unfold insertLinesOf at hl
  rcases List.mem_append.mp hl with h | h
  · rcases ref with _ | r
    · rcases hr : b.existingRef with _ | r
      · rw [hr] at h; simp at h
      · rw [hr] at h
        simp only [List.mem_singleton] at h
        subst h
        exact mark_append_hash _ _ refMark_head
    · simp only [List.mem_singleton] at h
      subst h
      exact mark_append_hash _ _ refMark_head
  · rcases ua with _ | u
    · rcases hu : b.existingUa with _ | u
      · rw [hu] at h; simp at h
      · rw [hu] at h
        simp only [List.mem_singleton] at h
        subst h
        exact mark_append_hash _ _ uaMark_head
    · simp only [List.mem_singleton] at h
      subst h
      exact mark_append_hash _ _ uaMark_head

theorem hash_pyStrip_ne_empty (l : String) (h : startsWithS l "#" = true) :
    ¬ pyStrip l = "" := by
  intro he
  have hd : stripData l.data = [] := congrArg String.data he
  unfold startsWithS at h
  rcases hld : l.data with _ | ⟨c, t⟩
  · rw [hld] at h
    simp [List.isPrefixOf] at h
  · have hc : c = '#' := by
      rw [hld] at h
      have hq : ("#" : String).data = ['#'] := rfl
      rw [hq] at h
      simp [List.isPrefixOf] at h
      exact h.symm
    subst hc
    rw [hld] at hd
    unfold stripData at hd
    rw [List.dropWhile_cons_of_neg (by decide)] at hd
    rw [List.rdropWhile_eq_nil_iff] at hd
    have := hd '#' (by simp)
    simp [isPySpace] at this

theorem blockOf_opts_clean (lines : List String) (t : Nat)
    (hwf : linesWf lines = true) :
    (∀ v, (blockOf lines t).existingRef = some v →
      v.data.rdropWhile isPySpace = v.data ∧ noBoundary v = true) ∧
    (∀ v, (blockOf lines t).existingUa = some v →
      v.data.rdropWhile isPySpace = v.data ∧ noBoundary v = true) := by
  have hblk : ∀ l ∈ (lines.drop
        (t + 1 + countBlanks (lines.drop (t + 1)))).take
      (min (endReplaceAt lines
          (t + 1 + countBlanks (lines.drop (t + 1)) +
            countComments (lines.drop (t + 1 + countBlanks (lines.drop (t + 1))))))
        lines.length - (t + 1 + countBlanks (lines.drop (t + 1)))),
      noBoundary l = true := by
    intro l hl
    have hmem : l ∈ lines :=
      List.drop_subset _ _ (List.take_subset _ _ hl)
    exact (linesWf_iff lines).mp hwf l hmem
  exact parseOpts_clean _ hblk (none, none) (by simp) (by simp)

theorem noBoundary_append_eq (a b : String) :
    noBoundary (a ++ b) = (noBoundary a && noBoundary b) := by
  unfold noBoundary
  rw [sData_append, List.all_append]

theorem insertLines_noBoundary (b : Block) (ref ua : Option String)
    (h1 : ∀ v, b.existingRef = some v → noBoundary v = true)
    (h2 : ∀ v, b.existingUa = some v → noBoundary v = true)
    (h3 : ∀ r, ref = some r → noBoundary r = true)
    (h4 : ∀ u, ua = some u → noBoundary u = true) :
    ∀ l ∈ insertLinesOf b ref ua, noBoundary l = true := by
  intro l hl
  unfold insertLinesOf at hl
  rcases List.mem_append.mp hl with h | h
  · rcases href : ref with _ | r
    · rw [href] at h
      rcases hbr : b.existingRef with _ | r
      · rw [hbr] at h; simp at h
      · rw [hbr] at h
        simp only [List.mem_singleton] at h
        subst h
        rw [noBoundary_append_eq]
        rw [h1 r hbr]
        simp only [Bool.and_true]
        decide
    · rw [href] at h
      simp only [List.mem_singleton] at h
      subst h
      rw [noBoundary_append_eq]
      rw [h3 r href]
      simp only [Bool.and_true]
      decide
  · rcases hua : ua with _ | u
    · rw [hua] at h
      rcases hbu : b.existingUa with _ | u
      · rw [hbu] at h; simp at h
      · rw [hbu] at h
        simp only [List.mem_singleton] at h
        subst h
        rw [noBoundary_append_eq]
        rw [h2 u hbu]
        simp only [Bool.and_true]
        decide
    · rw [hua] at h
      simp only [List.mem_singleton] at h
      subst h
      rw [noBoundary_append_eq]
      rw [h4 u hua]
      simp only [Bool.and_true]
      decide

theorem blockOf_generic (pre ins suf : List String) (url : String) (t : Nat)
    (hpre : ∀ x ∈ pre.drop (t + 1), pyStrip x = "")
    (hlen : t + 1 ≤ pre.length)
    (hins : ∀ x ∈ ins, startsWithS x "#" = true)
    (hurl1 : pyStrip url = url) (hurl2 : url ≠ "")
    (hurl3 : startsWithS url "#" = false) :
    blockOf (pre ++ (ins ++ ([url] ++ suf))) t =
      ⟨pre.length, pre.length + ins.length + 1, some url,
       (parseOptsAux (none, none) (ins ++ [url])).1,
       (parseOptsAux (none, none) (ins ++ [url])).2⟩ := by
  have hd1 : (pre ++ (ins ++ ([url] ++ suf))).drop (t + 1) =
      pre.drop (t + 1) ++ (ins ++ ([url] ++ suf)) := by
    rw [List.drop_append_eq_append_drop]
    have hz : t + 1 - pre.length = 0 := by omega
    rw [hz, List.drop_zero]
  have hx0 : countBlanks (ins ++ ([url] ++ suf)) = 0 := by
    cases hi : ins with
    | nil =>
      rw [List.nil_append]
      exact countBlanks_cons_of_ne _ _ (by rw [hurl1]; exact hurl2)
    | cons m ms =>
      rw [List.cons_append]
      exact countBlanks_cons_of_ne _ _
        (hash_pyStrip_ne_empty m (hins m (by rw [hi]; simp)))
  have hcb : countBlanks ((pre ++ (ins ++ ([url] ++ suf))).drop (t + 1)) =
      pre.length - (t + 1) := by
    rw [hd1, countBlanks_append _ _ hpre, hx0, List.length_drop]
    omega
  have hpos : posOf (pre ++ (ins ++ ([url] ++ suf))) t = pre.length := by
    unfold posOf
    rw [hcb]
    omega
  have hd2 : (pre ++ (ins ++ ([url] ++ suf))).drop pre.length =
      ins ++ ([url] ++ suf) := List.drop_left _ _
  have hcc : countComments (ins ++ ([url] ++ suf)) = ins.length := by
    rw [countComments_append _ _ hins]
    have : countComments ([url] ++ suf) = 0 := by
      rw [List.singleton_append]
      exact countComments_cons_of_ne _ _ hurl3
    rw [this]
    omega
  have hpos2 : pos2Of (pre ++ (ins ++ ([url] ++ suf))) t =
      pre.length + ins.length := by
    unfold pos2Of
    rw [hpos, hd2, hcc]
  have hget : (pre ++ (ins ++ ([url] ++ suf)))[pre.length + ins.length]? =
      some url := by
    rw [List.getElem?_append_right (by omega)]
    have h1 : pre.length + ins.length - pre.length = ins.length := by omega
    rw [h1]
    rw [List.getElem?_append_right (by omega)]
    have h2 : ins.length - ins.length = 0 := by omega
    rw [h2]
    simp
  have hexu : existingUrlAt (pre ++ (ins ++ ([url] ++ suf)))
      (pre.length + ins.length) = some url := by
    unfold existingUrlAt
    rw [hget]
    have hne : (pyStrip url != "") = true := by
      rw [hurl1]
      exact bne_iff_ne.mpr hurl2
    simp [hurl3, hne, hurl1, hurl2]
  have hend : endReplaceAt (pre ++ (ins ++ ([url] ++ suf)))
      (pre.length + ins.length) = pre.length + ins.length + 1 := by
    unfold endReplaceAt
    rw [hget]
    have hne : (pyStrip url != "") = true := by
      rw [hurl1]
      exact bne_iff_ne.mpr hurl2
    simp [hurl3, hne, hurl2]
  have hL : (pre ++ (ins ++ ([url] ++ suf))).length =
      pre.length + (ins.length + (1 + suf.length)) := by
    simp [List.length_append]
    omega
  have hblk : blkOf (pre ++ (ins ++ ([url] ++ suf))) t = ins ++ [url] := by
    unfold blkOf
    rw [hpos2, hend, hpos, hd2, hL]
    have hmin : min (pre.length + ins.length + 1)
        (pre.length + (ins.length + (1 + suf.length))) =
        pre.length + ins.length + 1 := by omega
    rw [hmin]
    have h1 : pre.length + ins.length + 1 - pre.length = ins.length + 1 := by omega
    rw [h1]
    rw [List.take_append_eq_append_take]
    have h2 : ins.take (ins.length + 1) = ins := List.take_of_length_le (by omega)
    have h3 : ins.length + 1 - ins.length = 1 := by omega
    rw [h2, h3]
    have h4 : ([url] ++ suf).take 1 = [url] := by
      rw [List.singleton_append]
      rfl
    rw [h4]
  unfold blockOf
  rw [hpos, hpos2, hexu, hend, hblk]


theorem startsWith_mark_false_of_not_hash (l : String) (m : String)
    (hm : startsWithS m "#" = true) (h : startsWithS l "#" = false) :
    startsWithS l m = false := by
  cases hx : startsWithS l m with
  | false => rfl
  | true =>
    have := startsWith_trans l m "#" hx hm
    rw [this] at h
    cases h

theorem refMark_hash : startsWithS refMark "#" = true := by decide

theorem uaMark_hash : startsWithS uaMark "#" = true := by decide

theorem parseOptsAux_skip_cons (acc : Option String × Option String)
    (l : String) (ls : List String)
    (h1 : startsWithS (pyStrip l) refMark = false)
    (h2 : startsWithS (pyStrip l) uaMark = false) :
    parseOptsAux acc (l :: ls) = parseOptsAux acc ls := by
  simp [parseOptsAux, h1, h2]

theorem parseOptsAux_ref_cons (acc : Option String × Option String)
    (r : String) (ls : List String)
    (hstrip : pyStrip (refMark ++ r) = refMark ++ r) :
    parseOptsAux acc ((refMark ++ r) :: ls) = parseOptsAux (some r, acc.2) ls := by
  have h1 : startsWithS (refMark ++ r) refMark = true := by
    unfold startsWithS
    rw [sData_append]
    exact isPrefixOf_append_self _ _
  have h2 : startsWithS (refMark ++ r) uaMark = false := by
    unfold startsWithS
    rw [sData_append]
    exact isPrefixOf_false_extend _ _ _ (by decide) (by decide)
  have h3 : splitVal (refMark ++ r) = r := splitVal_mark_append _ _ (by decide)
  simp [parseOptsAux, hstrip, h1, h2, h3]

theorem parseOptsAux_ua_cons (acc : Option String × Option String)
    (u : String) (ls : List String)
    (hstrip : pyStrip (uaMark ++ u) = uaMark ++ u) :
    parseOptsAux acc ((uaMark ++ u) :: ls) = parseOptsAux (acc.1, some u) ls := by
  have h1 : startsWithS (uaMark ++ u) uaMark = true := by
    unfold startsWithS
    rw [sData_append]
    exact isPrefixOf_append_self _ _
  have h2 : startsWithS (uaMark ++ u) refMark = false := by
    unfold startsWithS
    rw [sData_append]
    exact isPrefixOf_false_extend _ _ _ (by decide) (by decide)
  have h3 : splitVal (uaMark ++ u) = u := splitVal_mark_append _ _ (by decide)
  simp [parseOptsAux, hstrip, h1, h2, h3]

theorem parse_insert (b : Block) (ref ua : Option String) (url : String)
    (hrs : ∀ r, ref = some r → pyStrip r = r)
    (hus : ∀ u, ua = some u → pyStrip u = u)
    (hbr : ∀ v, b.existingRef = some v → v.data.rdropWhile isPySpace = v.data)
    (hbu : ∀ v, b.existingUa = some v → v.data.rdropWhile isPySpace = v.data)
    (hurl1 : pyStrip url = url) (hurl3 : startsWithS url "#" = false) :
    parseOptsAux (none, none) (insertLinesOf b ref ua ++ [url]) =
      (pickOpt ref b.existingRef, pickOpt ua b.existingUa) := by
  have hq1 : startsWithS (pyStrip url) refMark = false := by
    rw [hurl1]
    exact startsWith_mark_false_of_not_hash url refMark refMark_hash hurl3
  have hq2 : startsWithS (pyStrip url) uaMark = false := by
    rw [hurl1]
    exact startsWith_mark_false_of_not_hash url uaMark uaMark_hash hurl3
  have hrefline : ∀ (r : String), r.data.rdropWhile isPySpace = r.data →
      pyStrip (refMark ++ r) = refMark ++ r := fun r hr =>
    pyStrip_mark_append refMark r refMark_head (by decide) hr
  have hualine : ∀ (u : String), u.data.rdropWhile isPySpace = u.data →
      pyStrip (uaMark ++ u) = uaMark ++ u := fun u hu =>
    pyStrip_mark_append uaMark u uaMark_head (by decide) hu
  have hcr : ∀ (r : String), ref = some r → pyStrip (refMark ++ r) = refMark ++ r :=
    fun r h => hrefline r (pyStrip_self_rdrop r (hrs r h))
  have hcu : ∀ (u : String), ua = some u → pyStrip (uaMark ++ u) = uaMark ++ u :=
    fun u h => hualine u (pyStrip_self_rdrop u (hus u h))
  have hbrl : ∀ (r : String), b.existingRef = some r →
      pyStrip (refMark ++ r) = refMark ++ r := fun r h => hrefline r (hbr r h)
  have hbul : ∀ (u : String), b.existingUa = some u →
      pyStrip (uaMark ++ u) = uaMark ++ u := fun u h => hualine u (hbu u h)
  rcases href : ref with _ | r
  · rcases hbrx : b.existingRef with _ | r
    · rcases huax : ua with _ | u
      · rcases hbux : b.existingUa with _ | u
        · have hl : insertLinesOf b none none ++ [url] = [url] := by
            unfold insertLinesOf
            rw [hbrx, hbux]
            simp
          rw [hl, parseOptsAux_skip_cons _ url _ hq1 hq2]
          simp [pickOpt, parseOptsAux, hbrx, hbux]
        · have hl : insertLinesOf b none none ++ [url] = (uaMark ++ u) :: [url] := by
            unfold insertLinesOf
            rw [hbrx, hbux]
            simp
          rw [hl, parseOptsAux_ua_cons _ u _ (hbul u hbux),
            parseOptsAux_skip_cons _ url _ hq1 hq2]
          simp [pickOpt, parseOptsAux, hbrx, hbux]
      · have hl : insertLinesOf b none (some u) ++ [url] = (uaMark ++ u) :: [url] := by
          unfold insertLinesOf
          rw [hbrx]
          simp
        rw [hl, parseOptsAux_ua_cons _ u _ (hcu u huax),
          parseOptsAux_skip_cons _ url _ hq1 hq2]
        simp [pickOpt, parseOptsAux, hbrx]
    · rcases huax : ua with _ | u
      · rcases hbux : b.existingUa with _ | u
        · have hl : insertLinesOf b none none ++ [url] = (refMark ++ r) :: [url] := by
            unfold insertLinesOf
            rw [hbrx, hbux]
            simp
          rw [hl, parseOptsAux_ref_cons _ r _ (hbrl r hbrx),
            parseOptsAux_skip_cons _ url _ hq1 hq2]
          simp [pickOpt, parseOptsAux, hbrx, hbux]
        · have hl : insertLinesOf b none none ++ [url] =
              (refMark ++ r) :: (uaMark ++ u) :: [url] := by
            unfold insertLinesOf
            rw [hbrx, hbux]
            simp
          rw [hl, parseOptsAux_ref_cons _ r _ (hbrl r hbrx),
            parseOptsAux_ua_cons _ u _ (hbul u hbux),
            parseOptsAux_skip_cons _ url _ hq1 hq2]
          simp [pickOpt, parseOptsAux, hbrx, hbux]
      · have hl : insertLinesOf b none (some u) ++ [url] =
            (refMark ++ r) :: (uaMark ++ u) :: [url] := by
          unfold insertLinesOf
          rw [hbrx]
          simp
        rw [hl, parseOptsAux_ref_cons _ r _ (hbrl r hbrx),
          parseOptsAux_ua_cons _ u _ (hcu u huax),
          parseOptsAux_skip_cons _ url _ hq1 hq2]
        simp [pickOpt, parseOptsAux, hbrx]
  · rcases huax : ua with _ | u
    · rcases hbux : b.existingUa with _ | u
      · have hl : insertLinesOf b (some r) none ++ [url] = (refMark ++ r) :: [url] := by
          unfold insertLinesOf
          rw [hbux]
          simp
        rw [hl, parseOptsAux_ref_cons _ r _ (hcr r href),
          parseOptsAux_skip_cons _ url _ hq1 hq2]
        simp [pickOpt, parseOptsAux, hbux]
      · have hl : insertLinesOf b (some r) none ++ [url] =
            (refMark ++ r) :: (uaMark ++ u) :: [url] := by
          unfold insertLinesOf
          rw [hbux]
          simp
        rw [hl, parseOptsAux_ref_cons _ r _ (hcr r href),
          parseOptsAux_ua_cons _ u _ (hbul u hbux),
          parseOptsAux_skip_cons _ url _ hq1 hq2]
        simp [pickOpt, parseOptsAux, hbux]
    · have hl : insertLinesOf b (some r) (some u) ++ [url] =
          (refMark ++ r) :: (uaMark ++ u) :: [url] := by
        unfold insertLinesOf
        simp
      rw [hl, parseOptsAux_ref_cons _ r _ (hcr r href),
        parseOptsAux_ua_cons _ u _ (hcu u huax),
        parseOptsAux_skip_cons _ url _ hq1 hq2]
      simp [pickOpt, parseOptsAux]

theorem findFallback_eq (lines : List String) (tvgId : String) :
    findFallback lines tvgId =
      (if familyId tvgId then
        (if (trailingDigits tvgId).isEmpty then none
         else firstIdx (fallbackHit (trailingDigits tvgId)) lines)
       else none) := rfl

theorem secondCall_noChange (net2 : Request → FetchOutcome) (lines : List String)
    (a : UpdateArgs) (t : Nat) (b : Block)
    (hwf : linesWf lines = true)
    (ht : findTarget lines a.tvgId a.groupFilter = some t)
    (hb : b = blockOf lines t)
    (hu : urlSane a.newUrl = true)
    (hr : optSane a.referrer = true)
    (hua : optSane a.userAgent = true)
    (hfree : ∀ l ∈ insertLinesOf b a.referrer a.userAgent ++ [a.newUrl],
      lineAccept a.tvgId a.groupFilter l = false) :
    (update_m3u_file net2
        (joinNL (newLinesOf lines b a.newUrl a.referrer a.userAgent)) a).1 =
      Except.ok (false, some a.newUrl) := by
  obtain ⟨hu1, hu2, hu3, hu4⟩ := urlSane_parts a.newUrl hu
  have hrs : ∀ r, a.referrer = some r → pyStrip r = r := by
    intro r h
    rw [h] at hr
    exact (optSane_parts r hr).1
  have hrb : ∀ r, a.referrer = some r → noBoundary r = true := by
    intro r h
    rw [h] at hr
    exact (optSane_parts r hr).2
  have hus : ∀ u, a.userAgent = some u → pyStrip u = u := by
    intro u h
    rw [h] at hua
    exact (optSane_parts u hua).1
  have hub : ∀ u, a.userAgent = some u → noBoundary u = true := by
    intro u h
    rw [h] at hua
    exact (optSane_parts u hua).2
  have hbclean := blockOf_opts_clean lines t hwf
  have hbr : ∀ v, b.existingRef = some v →
      v.data.rdropWhile isPySpace = v.data ∧ noBoundary v = true := by
    rw [hb]
    exact hbclean.1
  have hbu : ∀ v, b.existingUa = some v →
      v.data.rdropWhile isPySpace = v.data ∧ noBoundary v = true := by
    rw [hb]
    exact hbclean.2
  have hts : t < lines.length := findTarget_lt_length _ _ _ _ ht
  have hsdef : b.startReplace = t + 1 + countBlanks (lines.drop (t + 1)) := by
    rw [hb]
    rfl
  have hsle : b.startReplace ≤ lines.length := by
    rw [hb]
    exact startReplace_le_length lines t hts
  have hts1 : t + 1 ≤ b.startReplace := by omega
  have htklen : (lines.take b.startReplace).length = b.startReplace := by
    rw [List.length_take]
    omega
  have hNLdef : newLinesOf lines b a.newUrl a.referrer a.userAgent =
      lines.take b.startReplace ++
        (insertLinesOf b a.referrer a.userAgent ++ ([a.newUrl] ++
          lines.drop (max b.startReplace (min b.endReplace lines.length)))) := by
    unfold newLinesOf
    simp [List.append_assoc]
  have hinswf : ∀ l ∈ insertLinesOf b a.referrer a.userAgent, noBoundary l = true :=
    insertLines_noBoundary b _ _ (fun v hv => (hbr v hv).2)
      (fun v hv => (hbu v hv).2) hrb hub
  have hNLwf : linesWf (newLinesOf lines b a.newUrl a.referrer a.userAgent) = true := by
    rw [linesWf_iff]
    intro l hl
    rw [hNLdef] at hl
    rcases List.mem_append.mp hl with h | h
    · exact (linesWf_iff lines).mp hwf l (List.take_subset _ _ h)
    · rcases List.mem_append.mp h with h | h
      · exact hinswf l h
      · rcases List.mem_append.mp h with h | h
        · simp only [List.mem_singleton] at h
          subst h
          exact hu4
        · exact (linesWf_iff lines).mp hwf l (List.drop_subset _ _ h)
  have hsplit : pySplitlines
      (joinNL (newLinesOf lines b a.newUrl a.referrer a.userAgent)) =
      newLinesOf lines b a.newUrl a.referrer a.userAgent :=
    pySplitlines_joinNL _ hNLwf
  have htake : (newLinesOf lines b a.newUrl a.referrer a.userAgent).take (t + 1) =
      lines.take (t + 1) := by
    rw [hNLdef]
    rw [List.take_append_of_le_length (by rw [htklen]; omega)]
    rw [List.take_take]
    congr 1
    omega
  have hloc : findTarget (newLinesOf lines b a.newUrl a.referrer a.userAgent)
      a.tvgId a.groupFilter = some t := by
    cases hp : findPrimary lines a.tvgId a.groupFilter with
    | some i =>
      have hit : i = t := by
        unfold findTarget at ht
        rw [hp] at ht
        simpa using ht
      subst hit
      have h2 : findPrimary (newLinesOf lines b a.newUrl a.referrer a.userAgent)
          a.tvgId a.groupFilter = some i :=
        firstIdx_prefix_stable _ lines _ i hp htake
      unfold findTarget
      rw [h2]
    | none =>
      have hall : ∀ x ∈ lines, lineAccept a.tvgId a.groupFilter x = false :=
        (firstIdx_eq_none_iff _ _).mp hp
      have hpn : findPrimary (newLinesOf lines b a.newUrl a.referrer a.userAgent)
          a.tvgId a.groupFilter = none := by
        unfold findPrimary
        rw [firstIdx_eq_none_iff]
        intro x hx
        rw [hNLdef] at hx
        rcases List.mem_append.mp hx with h | h
        · exact hall x (List.take_subset _ _ h)
        · rcases List.mem_append.mp h with h | h
          · exact hfree x (List.mem_append.mpr (Or.inl h))
          · rcases List.mem_append.mp h with h | h
            · exact hfree x (List.mem_append.mpr (Or.inr h))
            · exact hall x (List.drop_subset _ _ h)
      unfold findTarget at ht ⊢
      rw [hp] at ht
      rw [hpn]
      simp only at ht ⊢
      rw [findFallback_eq] at ht ⊢
      by_cases hf : familyId a.tvgId = true
      case neg =>
        rw [if_neg hf] at ht
        cases ht
      rw [if_pos hf] at ht ⊢
      by_cases he : (trailingDigits a.tvgId).isEmpty = true
      case pos =>
        rw [if_pos he] at ht
        cases ht
      rw [if_neg he] at ht ⊢
      exact firstIdx_prefix_stable _ lines _ t ht htake
  have hpre : ∀ x ∈ (lines.take b.startReplace).drop (t + 1), pyStrip x = "" := by
    intro x hx
    rw [List.drop_take] at hx
    have hx2 : x ∈ (lines.drop (t + 1)).take (countBlanks (lines.drop (t + 1))) := by
      have he : b.startReplace - (t + 1) = countBlanks (lines.drop (t + 1)) := by
        omega
      rw [← he]
      exact hx
    exact countBlanks_take_blank _ x hx2
  have hblock : blockOf (newLinesOf lines b a.newUrl a.referrer a.userAgent) t =
      ⟨(lines.take b.startReplace).length,
       (lines.take b.startReplace).length +
         (insertLinesOf b a.referrer a.userAgent).length + 1,
       some a.newUrl,
       (parseOptsAux (none, none)
         (insertLinesOf b a.referrer a.userAgent ++ [a.newUrl])).1,
       (parseOptsAux (none, none)
         (insertLinesOf b a.referrer a.userAgent ++ [a.newUrl])).2⟩ := by
    rw [hNLdef]
    exact blockOf_generic _ _ _ _ t hpre (by rw [htklen]; omega)
      (insertLines_hash b _ _) hu1 hu2 hu3
  have hparse := parse_insert b a.referrer a.userAgent a.newUrl hrs hus
    (fun v hv => (hbr v hv).1) (fun v hv => (hbu v hv).1) hu1 hu3
  have hnc : needsChange
      (⟨(lines.take b.startReplace).length,
        (lines.take b.startReplace).length +
          (insertLinesOf b a.referrer a.userAgent).length + 1,
        some a.newUrl,
        (parseOptsAux (none, none)
          (insertLinesOf b a.referrer a.userAgent ++ [a.newUrl])).1,
        (parseOptsAux (none, none)
          (insertLinesOf b a.referrer a.userAgent ++ [a.newUrl])).2⟩ : Block)
      a.newUrl a.referrer a.userAgent = false := by
    unfold needsChange urlChangedOf optsChangedOf
    simp only [hparse]
    cases a.referrer <;> cases a.userAgent <;> simp [pickOpt]
  unfold update_m3u_file updateText
  rw [readText_joinNL _ hNLwf]
  simp only [hsplit, hloc]
  rw [hblock, hnc]
  simp

/-- Claim C4: when the locator finds the entry and neither the URL (after
trimming) nor any supplied option value differs from what is recorded,
the call returns `(false, existingUrl)` with no write, no backup and no
dependence on the network oracle (it is never consulted); and
consequently, for a sane URL and sane supplied option values, running
the same update twice in a row — the second call on whatever the first
call left on disk — yields `changed = false` on the second call. -/
theorem c4_idempotence (net net2 : Request → FetchOutcome) (raw : String)
    (a : UpdateArgs) (t : Nat) (b : Block)
    (ht : findTarget (pySplitlines (readText raw)) a.tvgId a.groupFilter = some t)
    (hb : b = blockOf (pySplitlines (readText raw)) t) :
    (needsChange b a.newUrl a.referrer a.userAgent = false →
      update_m3u_file net raw a = (Except.ok (false, b.existingUrl), noEffects)) ∧
    (a.dryRun = false →
     urlSane a.newUrl = true →
     optSane a.referrer = true →
     optSane a.userAgent = true →
     (∀ l ∈ insertLinesOf b a.referrer a.userAgent ++ [a.newUrl],
        lineAccept a.tvgId a.groupFilter l = false) →
     ∀ res eff, update_m3u_file net raw a = (Except.ok res, eff) →
       ∃ q, (update_m3u_file net2 (eff.fileWritten.getD raw) a).1 =
         Except.ok (false, q)) := by
  constructor
  · intro hnc
    unfold update_m3u_file updateText
    simp only [ht]
    rw [← hb, hnc]
    simp
  · intro hd hu hr hua hfree res eff hrun
    by_cases hnc : needsChange b a.newUrl a.referrer a.userAgent = true
    case neg =>
      have hnc2 : needsChange b a.newUrl a.referrer a.userAgent = false := by
        simpa using hnc
      have hfirst : update_m3u_file net raw a =
          (Except.ok (false, b.existingUrl), noEffects) := by
        unfold update_m3u_file updateText
        simp only [ht]
        rw [← hb, hnc2]
        simp
      rw [hfirst] at hrun
      have heff : noEffects = eff := congrArg Prod.snd hrun
      refine ⟨b.existingUrl, ?_⟩
      rw [← heff]
      show (update_m3u_file net2 raw a).1 = _
      unfold update_m3u_file updateText
      simp only [ht]
      rw [← hb, hnc2]
      simp
    case pos =>
      by_cases hv : validate_url net a.newUrl a.referrer a.userAgent none = true
      case neg =>
        have hv2 : validate_url net a.newUrl a.referrer a.userAgent none = false := by
          simpa using hv
        have hfail : update_m3u_file net raw a =
            (Except.error UpdErr.validationFailed, noEffects) := by
          unfold update_m3u_file updateText
          simp only [ht]
          rw [← hb]
          simp [hnc, hv2]
        rw [hfail] at hrun
        have := congrArg Prod.fst hrun
        simp at this
      case pos =>
        have hwrt : update_m3u_file net raw a =
            (Except.ok (true, b.existingUrl),
             ⟨if a.backupDirProvided then some (readText raw) else none,
              some (pyJoinNL (newLinesOf (pySplitlines (readText raw)) b
                a.newUrl a.referrer a.userAgent) ++ "\n")⟩) := by
          unfold update_m3u_file updateText
          simp only [ht]
          rw [← hb]
          simp [hnc, hv, hd]
        rw [hwrt] at hrun
        have heff : (⟨if a.backupDirProvided then some (readText raw) else none,
            some (pyJoinNL (newLinesOf (pySplitlines (readText raw)) b
              a.newUrl a.referrer a.userAgent) ++ "\n")⟩ : Effects) = eff :=
          congrArg Prod.snd hrun
        refine ⟨some a.newUrl, ?_⟩
        rw [← heff]
        have hne : newLinesOf (pySplitlines (readText raw)) b
            a.newUrl a.referrer a.userAgent ≠ [] := by
          unfold newLinesOf
          simp
        have hnt : pyJoinNL (newLinesOf (pySplitlines (readText raw)) b
              a.newUrl a.referrer a.userAgent) ++ "\n" =
            joinNL (newLinesOf (pySplitlines (readText raw)) b
              a.newUrl a.referrer a.userAgent) :=
          pyJoinNL_newline _ hne
        show (update_m3u_file net2
          ((some (pyJoinNL (newLinesOf (pySplitlines (readText raw)) b
            a.newUrl a.referrer a.userAgent) ++ "\n")).getD raw) a).1 = _
        rw [Option.getD_some, hnt]
        exact secondCall_noChange net2 (pySplitlines (readText raw)) a t b
          (pySplitlines_wf _) ht hb hu hr hua hfree

/-- Witness for C4: a call whose URL already matches returns
`(false, existingUrl)` with no effects even under a failing network
oracle, and re-running the sample update on the file the first call
wrote yields `changed = false`. -/
theorem c4_witness :
    update_m3u_file netNo "#EXTINF:-1 tvg-id=\"CH1\",X\nhttps://new.url/b.m3u8\n"
        sampleArgs =
      (Except.ok (false, some "https://new.url/b.m3u8"), noEffects) ∧
    (∃ q, (update_m3u_file netNo
        ((⟨none, some ("#EXTINF:-1 tvg-id=\"CH1\" group-title=\"HD\",Channel One\n" ++
          "#EXTVLCOPT:http-referrer=https://old\nhttps://new.url/b.m3u8\n")⟩ :
            Effects).fileWritten.getD sampleRaw) sampleArgs).1 =
      Except.ok (false, q)) := by
  constructor
  · exact ((c4_idempotence netNo netNo
      "#EXTINF:-1 tvg-id=\"CH1\",X\nhttps://new.url/b.m3u8\n" sampleArgs 0
      (blockOf (pySplitlines (readText
        "#EXTINF:-1 tvg-id=\"CH1\",X\nhttps://new.url/b.m3u8\n")) 0)
      (by decide) rfl).1 (by decide)).trans (by decide)
  · exact (c4_idempotence netYes netNo sampleRaw sampleArgs 0
      (blockOf (pySplitlines (readText sampleRaw)) 0)
      (by decide) rfl).2 rfl (by decide) (by decide) (by decide) (by decide)
      (true, some "https://old.url/a.m3u8")
      ⟨none, some ("#EXTINF:-1 tvg-id=\"CH1\" group-title=\"HD\",Channel One\n" ++
        "#EXTVLCOPT:http-referrer=https://old\nhttps://new.url/b.m3u8\n")⟩
      (by decide)
